import Mathlib

/-!
# PlantBay server (`src/index.js`): a shallow embedding

The Express handlers of `src/index.js` are modelled as pure functions over an
explicit database state.  The document store (`mongodb`), the token library
(`jsonwebtoken`), the clock and the id generator are external to the
repository; the store operations the handlers call are modelled here with the
behaviour the MongoDB manual documents for them, the other three are
parameters (`Env`).

Boundaries of the model, stated once:
* numbers have integral values: a JavaScript number is an IEEE double that is
  an integer, an infinity or NaN, and the store holds int32, int64 and double
  numbers; fractions and the sign of zero are not represented;
* stored values are scalars, ObjectIds and nested documents (no arrays);
* route parameters are strings; the payload of a verified token is any
  document, as `POST /jwt` signs any body.
-/

namespace PlantBay

/-! ## Documents -/

mutual
/-- A BSON/JSON value. -/
inductive Value where
  | null
  | bool (b : Bool)
  /-- A number as the driver writes the JavaScript number `n`: a BSON int32
  when `n` lies within int32, a BSON double otherwise. -/
  | num (n : Int)
  | str (s : String)
  | oid (n : Nat)
  | obj (d : Doc)
  /-- A BSON int64, which the store makes when an int32 sum leaves int32. -/
  | long (n : Int)
  /-- A BSON double whose value lies within int32, made by arithmetic. -/
  | dbl (n : Int)
  /-- A BSON double that is an infinity. -/
  | inf (negative : Bool)
  /-- A BSON double that is NaN. -/
  | nan
  deriving DecidableEq
/-- A document: an ordered sequence of fields. -/
inductive Doc where
  | nil
  | cons (k : String) (v : Value) (rest : Doc)
  deriving DecidableEq
end

namespace Doc

/-- Field read `d[k]`; `none` is JavaScript's `undefined` / BSON's missing. -/
def get : Doc → String → Option Value
  | .nil, _ => none
  | .cons k v rest, f => if k = f then some v else rest.get f

/-- Field write: replaces the field where it stands, or appends it. -/
def set : Doc → String → Value → Doc
  | .nil, f, w => .cons f w .nil
  | .cons k v rest, f, w => if k = f then .cons k w rest else .cons k v (rest.set f w)

/-- Field removal. -/
def erase : Doc → String → Doc
  | .nil, _ => .nil
  | .cons k v rest, f => if k = f then rest.erase f else .cons k v (rest.erase f)

/-- Writes a field when the value is present, removes it when it is missing:
what `$addFields` does with an expression that evaluates to missing. -/
def assign (d : Doc) (f : String) : Option Value → Doc
  | some v => d.set f v
  | none => d.erase f

/-- Object spread `{...d, k₁: v₁, ..., kₙ: vₙ}` and the `$set` operator. -/
def setAll (d : Doc) : List (String × Value) → Doc
  | [] => d
  | (k, v) :: rest => (d.set k v).setAll rest

end Doc

/-- Dotted-path read such as `plantInfo.plantId`. -/
def Value.getPath : Value → List String → Option Value
  | v, [] => some v
  | .obj d, k :: ks =>
    match d.get k with
    | some v => v.getPath ks
    | none => none
  | _, _ :: _ => none

/-- Dotted-path read on a document. -/
def Doc.getPath (d : Doc) (path : List String) : Option Value :=
  (Value.obj d).getPath path

/-! ## ObjectIds -/

/-- Value of a hexadecimal digit. -/
def hexDigit (c : Char) : Option Nat :=
  if 48 ≤ c.toNat ∧ c.toNat ≤ 57 then some (c.toNat - 48)
  else if 97 ≤ c.toNat ∧ c.toNat ≤ 102 then some (c.toNat - 87)
  else if 65 ≤ c.toNat ∧ c.toNat ≤ 70 then some (c.toNat - 55)
  else none

/-- Value of a string of hexadecimal digits, most significant first. -/
def hexValue : List Char → Nat → Option Nat
  | [], acc => some acc
  | c :: cs, acc =>
    match hexDigit c with
    | some d => hexValue cs (16 * acc + d)
    | none => none

/-- The ObjectId a string denotes: exactly 24 hexadecimal digits.  This is
`new ObjectId(id)` in the handlers and `$toObjectId` on a string in the
pipelines; both fail on any other string. -/
def parseObjectId (s : String) : Option Nat :=
  if s.data.length = 24 then hexValue s.data 0 else none

/-! ## Numbers -/

/-- A JavaScript number with an integral value, an infinity, or NaN. -/
inductive JsNumber where
  | fin (n : Int)
  | inf (negative : Bool)
  | nan
  deriving DecidableEq

/-- A number of the store, with an integral value. -/
inductive BsonNumber where
  | int32 (n : Int)
  | int64 (n : Int)
  | double (x : JsNumber)
  deriving DecidableEq

/-- The least power of two `u`, from `u` on, with `m / u < 2 ^ 53`: the
spacing of the doubles around `m`. -/
def ulpFrom : Nat → Nat → Nat → Nat
  | 0, _, u => u
  | fuel + 1, m, u => if m / u < 9007199254740992 then u else ulpFrom fuel m (2 * u)

/-- The natural number nearest to `m` with 53 significant bits, ties to the
even significand. -/
def roundNat (m : Nat) : Nat :=
  let u := ulpFrom 1024 m 1
  let q := m / u
  let r := m % u
  if 2 * r < u then q * u
  else if u < 2 * r then (q + 1) * u
  else if q % 2 = 0 then q * u
  else (q + 1) * u

/-- The bound `2 ^ 1024`: a magnitude that rounds to it or above is an
infinity. -/
def doubleLimit : Nat := 179769313486231590772930519078902473361797697894230657273430081157732675805500963132708477322407536021120113879871393357658789768814416622492847430639474124377767893424865485276302219601246094119453082952085005768838150682342462881473913110540827237163350510684586298239947245938479716304835356329624224137216

/-- The double nearest to an integer (round to nearest, ties to even): how
`express.json()` reads an integer of the body and how the store converts and
adds.  Integers of magnitude below `2 ^ 53` are exact. -/
def toDouble (n : Int) : JsNumber :=
  if n.natAbs < 9007199254740992 then .fin n
  else if doubleLimit ≤ roundNat n.natAbs then .inf (decide (n < 0))
  else if n < 0 then .fin (-(roundNat n.natAbs : Int))
  else .fin (roundNat n.natAbs)

/-- Unary minus of JavaScript. -/
def JsNumber.neg : JsNumber → JsNumber
  | .fin n => .fin (-n)
  | .inf negative => .inf (!negative)
  | .nan => .nan

/-- Addition of doubles: the exact sum, rounded. -/
def JsNumber.add : JsNumber → JsNumber → JsNumber
  | .fin a, .fin b => toDouble (a + b)
  | .nan, _ => .nan
  | _, .nan => .nan
  | .inf s, .inf t => if s = t then .inf s else .nan
  | .inf s, .fin _ => .inf s
  | .fin _, .inf t => .inf t

/-- The range of a BSON int32. -/
def inInt32 (n : Int) : Bool := decide (-2147483648 ≤ n ∧ n ≤ 2147483647)

/-- The range of a BSON int64. -/
def inInt64 (n : Int) : Bool :=
  decide (-9223372036854775808 ≤ n ∧ n ≤ 9223372036854775807)

/-- How the driver writes a JavaScript number: an int32 when it is an integer
within int32, a double otherwise. -/
def JsNumber.toBson : JsNumber → BsonNumber
  | .fin n => if inInt32 n then .int32 n else .double (.fin n)
  | x => .double x

/-- Conversion of a store number to double. -/
def BsonNumber.toDouble : BsonNumber → JsNumber
  | .int32 n => PlantBay.toDouble n
  | .int64 n => PlantBay.toDouble n
  | .double x => x

/-- Addition as `$inc` performs it: two int32 give an int32, or an int64 when
the sum leaves int32; with an int64 the sum is an int64 and the operation
fails when it leaves int64 (`none`); with a double both are added as
doubles. -/
def BsonNumber.add : BsonNumber → BsonNumber → Option BsonNumber
  | .int32 a, .int32 b => some (if inInt32 (a + b) then .int32 (a + b) else .int64 (a + b))
  | .int32 a, .int64 b => if inInt64 (a + b) then some (.int64 (a + b)) else none
  | .int64 a, .int32 b => if inInt64 (a + b) then some (.int64 (a + b)) else none
  | .int64 a, .int64 b => if inInt64 (a + b) then some (.int64 (a + b)) else none
  | .double x, y => some (.double (x.add y.toDouble))
  | x, .double y => some (.double (x.toDouble.add y))

/-- The store number a value is, `none` for a value that is not a number. -/
def Value.toBson : Value → Option BsonNumber
  | .num n => some (if inInt32 n then .int32 n else .double (.fin n))
  | .long n => some (.int64 n)
  | .dbl n => some (.double (.fin n))
  | .inf negative => some (.double (.inf negative))
  | .nan => some (.double .nan)
  | _ => none

/-- The value that holds a store number. -/
def BsonNumber.toValue : BsonNumber → Value
  | .int32 n => .num n
  | .int64 n => .long n
  | .double (.fin n) => if inInt32 n then .dbl n else .num n
  | .double (.inf negative) => .inf negative
  | .double .nan => .nan

/-- The integer a value denotes, `none` when it is not a finite number. -/
def Value.asInt : Value → Option Int
  | .num n => some n
  | .long n => some n
  | .dbl n => some n
  | _ => none

/-- The exact value of a store number. -/
def BsonNumber.exact : BsonNumber → JsNumber
  | .int32 n => .fin n
  | .int64 n => .fin n
  | .double x => x

mutual
/-- Equality as the store compares a filter value with a field: numbers by
value, whatever their type; documents field by field, in order. -/
def Value.same : Value → Value → Bool
  | .obj a, .obj b => a.same b
  | .obj _, _ => false
  | _, .obj _ => false
  | v, w =>
    match v.toBson, w.toBson with
    | some x, some y => decide (x.exact = y.exact)
    | _, _ => decide (v = w)
/-- Equality of documents as the store compares them. -/
def Doc.same : Doc → Doc → Bool
  | .nil, .nil => true
  | .cons k v rest, .cons k2 v2 rest2 => decide (k = k2) && v.same v2 && rest.same rest2
  | _, _ => false
end

/-- The integers JavaScript calls safe: magnitude below `2 ^ 53`. -/
def SafeInt (n : Int) : Prop := -9007199254740992 < n ∧ n < 9007199254740992

instance (n : Int) : Decidable (SafeInt n) := by
  unfold SafeInt; infer_instance

/-! ## The document store -/

/-- A collection, in natural (insertion) order. -/
abbrev Collection := List Doc

/-- Errors the store reports; each rejects the promise the handler awaits. -/
inductive StoreError where
  | duplicateKey
  | nonNumeric
  | overflow
  | conversion
  | badQuery
  deriving DecidableEq

/-- The `_id` values of a collection; an absent `_id` reads as `null`. -/
def ids (c : Collection) : List Value :=
  c.map (fun d => (d.get "_id").getD .null)

/-- The store's unique index on `_id`. -/
def UniqueIds (c : Collection) : Prop := (ids c).Nodup

instance (c : Collection) : Decidable (UniqueIds c) := by
  unfold UniqueIds; infer_instance

/-- Filter `{ field: v }`. -/
def fieldIs (field : String) (v : Value) (d : Doc) : Bool :=
  decide (d.get field = some v)

/-- Filter `{ 'a.b': v }` on a dotted path. -/
def pathIs (path : List String) (v : Value) (d : Doc) : Bool :=
  decide (d.getPath path = some v)

/-- Filter `{ field: { $ne: v } }`: also matches documents without the field. -/
def fieldNe (field : String) (v : Value) (d : Doc) : Bool :=
  !fieldIs field v d

/-- `collection.findOne(filter)`: the first match, `none` for `null`. -/
def findOne (c : Collection) (filter : Doc → Bool) : Option Doc :=
  c.find? filter

/-- `collection.find(filter).toArray()`. -/
def findAll (c : Collection) (filter : Doc → Bool) : List Doc :=
  c.filter filter

/-- `collection.deleteOne(filter)`: removes the first match; returns the new
collection and `deletedCount`. -/
def deleteOne : Collection → (Doc → Bool) → Collection × Nat
  | [], _ => ([], 0)
  | d :: rest, filter =>
    if filter d then (rest, 1)
    else ((d :: (deleteOne rest filter).1), (deleteOne rest filter).2)

/-- `collection.updateOne(filter, update)`: applies the update to the first
match; returns the new collection, `matchedCount` and `modifiedCount`. -/
def updateOne : Collection → (Doc → Bool) → (Doc → Except StoreError Doc) →
    Except StoreError (Collection × Nat × Nat)
  | [], _, _ => .ok ([], 0, 0)
  | d :: rest, filter, update =>
    if filter d then
      match update d with
      | .ok d' => .ok (d' :: rest, 1, if d' = d then 0 else 1)
      | .error e => .error e
    else
      match updateOne rest filter update with
      | .ok (rest', m, n) => .ok (d :: rest', m, n)
      | .error e => .error e

/-- Update document `{ $set: { k₁: v₁, ... } }`. -/
def setOp (fields : List (String × Value)) (d : Doc) : Except StoreError Doc :=
  .ok (d.setAll fields)

/-- Update document `{ $inc: { field: delta } }`: adds to a numeric field,
creates an absent one, fails on a field that is not a number and on an int64
sum that leaves int64. -/
def incOp (field : String) (delta : BsonNumber) (d : Doc) : Except StoreError Doc :=
  match d.get field with
  | none => .ok (d.set field delta.toValue)
  | some v =>
    match v.toBson with
    | none => .error .nonNumeric
    | some x =>
      match x.add delta with
      | some sum => .ok (d.set field sum.toValue)
      | none => .error .overflow

/-- `collection.insertOne(doc)`: the driver gives the document an `_id` from
`createPk` when it has none (`doc._id == null`), the server stores `_id` as
the first field and refuses a duplicate `_id`.  Returns the new collection and
`insertedId`. -/
def insertOne (createPk : Nat) (c : Collection) (d : Doc) :
    Except StoreError (Collection × Value) :=
  let id : Value :=
    match d.get "_id" with
    | none => .oid createPk
    | some .null => .oid createPk
    | some v => v
  if id ∈ ids c then .error .duplicateKey
  else .ok (c ++ [Doc.cons "_id" id (d.erase "_id")], id)

/-! ## Requests, responses, state -/

/-- What the process cannot compute inside the repository. -/
structure Env where
  /-- Decoding of `jwt.verify(token, secret, cb)`: the decoded payload, `none`
  when verification fails.  The payload is whatever body `POST /jwt` signed. -/
  jwtVerify : String → Option Doc
  /-- The store's reading of a filter `{ path: q }` whose value `q` is a
  document of query operators such as `{ $ne: v }`; an error when the store
  rejects the query. -/
  queryOperators : List String → Doc → Except StoreError (Doc → Bool)
  /-- Result of `Date.now()`. -/
  now : Int
  /-- Identifier the driver generates for a document without `_id`. -/
  createPk : Nat

/-- The three collections of `PlantBayDB`. -/
structure Db where
  users : Collection
  plants : Collection
  orders : Collection
  deriving DecidableEq

/-- An incoming request, as far as the handlers read it. -/
structure Request where
  /-- Value of `req.cookies?.token`. -/
  token : Option String
  /-- The route parameter (`req.params.email` or `req.params.id`). -/
  param : String
  /-- Value of `req.body`. -/
  body : Doc
  /-- The decoded payload `req.user`, once `verifyToken` has set it. -/
  user : Option Doc
  deriving DecidableEq

/-- Response bodies. -/
inductive Body where
  | message (text : String)
  | userExists (text : String) (isExist : Doc)
  | insertResult (insertedId : Value)
  | updateResult (matchedCount modifiedCount : Nat)
  | deleteResult (deletedCount : Nat)
  | rows (docs : List Doc)
  deriving DecidableEq

/-- Ways a handler ends without answering. -/
inductive Fault where
  /-- Property read on `null`/`undefined`. -/
  | typeError
  /-- The constructor `new ObjectId(id)` rejected its argument. -/
  | bsonError
  /-- The awaited store operation rejected. -/
  | store (e : StoreError)
  deriving DecidableEq

/-- How a handler invocation ends. -/
inductive Outcome where
  | sent (status : Nat) (body : Body)
  | thrown (f : Fault)
  deriving DecidableEq

/-- A route handler. -/
abbrev Handler := Env → Db → Request → Outcome × Db

/-! ## Middleware -/

/-- How a middleware ends: it calls `next()`, answers, or throws. -/
inductive Step where
  | next (req : Request)
  | respond (status : Nat) (body : Body)
  | throw (f : Fault)
  deriving DecidableEq

/-- An Express middleware. -/
abbrev Middleware := Env → Db → Request → Step

/-- The middleware `verifyToken`. -/
def verifyToken : Middleware := fun env _ req =>
  match req.token with
  | none => .respond 401 (.message "unauthorized access")
  | some token =>
    if token = "" then .respond 401 (.message "unauthorized access")
    else
      match env.jwtVerify token with
      | none => .respond 401 (.message "unauthorized access")
      | some decoded => .next { req with user := some decoded }

/-- A document with a key that starts with `$`: the store reads it as query
operators, not as a value to compare with. -/
def Doc.hasOperatorKey : Doc → Bool
  | .nil => false
  | .cons k _ rest => decide (k.data.head? = some (Char.ofNat 36)) || rest.hasOperatorKey

/-- The field at `path` exists and equals `v` as the store compares values. -/
def sameAt (path : List String) (v : Value) (d : Doc) : Bool :=
  match d.getPath path with
  | some w => v.same w
  | none => false

/-- The filter `{ path: v }` for a value `v` that the handler does not check:
`undefined` is sent as `null`, and `null` matches a field that is `null` or
missing; a document of query operators is evaluated by the store; any other
value matches the fields equal to it. -/
def valueFilter (env : Env) (path : List String) :
    Option Value → Except StoreError (Doc → Bool)
  | none => .ok (fun d => decide (d.getPath path = none ∨ d.getPath path = some .null))
  | some .null => .ok (fun d => decide (d.getPath path = none ∨ d.getPath path = some .null))
  | some (.obj q) =>
    if q.hasOperatorKey then env.queryOperators path q else .ok (sameAt path (.obj q))
  | some v => .ok (sameAt path v)

/-- The middleware `verifyAdmin`; its filter is `{ email: req.user.email }`. -/
def verifyAdmin : Middleware := fun env db req =>
  match req.user with
  | none => .throw .typeError
  | some user =>
    match valueFilter env ["email"] (user.get "email") with
    | .error e => .throw (.store e)
    | .ok filter =>
      match findOne db.users filter with
      | none => .respond 403 (.message "forbidden access! Action only Admin")
      | some result =>
        if result.get "role" ≠ some (.str "admin") then
          .respond 403 (.message "forbidden access! Action only Admin")
        else .next req

/-- The middleware `verifySeller`; its filter is `{ email: req.user.email }`. -/
def verifySeller : Middleware := fun env db req =>
  match req.user with
  | none => .throw .typeError
  | some user =>
    match valueFilter env ["email"] (user.get "email") with
    | .error e => .throw (.store e)
    | .ok filter =>
      match findOne db.users filter with
      | none => .respond 403 (.message "forbidden access! Action only  Seller")
      | some result =>
        if result.get "role" ≠ some (.str "seller") then
          .respond 403 (.message "forbidden access! Action only  Seller")
        else .next req

/-- Registration `app.METHOD(path, m₁, ..., mₙ, handler)`: the middlewares run
in order, each on the request the previous one passed on; the handler runs
only when all of them called `next()`. -/
def route : List Middleware → Handler → Handler
  | [], handler => handler
  | m :: rest, handler => fun env db req =>
    match m env db req with
    | .next req' => route rest handler env db req'
    | .respond status body => (.sent status body, db)
    | .throw f => (.thrown f, db)

/-! ## Accounts -/

/-- The handler of `POST /users/:email`. -/
def upsertAccount : Handler := fun env db req =>
  let filter := fieldIs "email" (.str req.param)
  match findOne db.users filter with
  | some isExist => (.sent 200 (.userExists "User Already exist." isExist), db)
  | none =>
    match insertOne env.createPk db.users
        (req.body.setAll [("role", .str "customer"), ("timeStamp", .num env.now)]) with
    | .ok (users, insertedId) =>
      (.sent 200 (.insertResult insertedId), { db with users := users })
    | .error e => (.thrown (.store e), db)

/-- The handler body of `GET /all-users/:email`. -/
def listAccountsExceptBody : Handler := fun _ db req =>
  (.sent 200 (.rows (findAll db.users (fieldNe "email" (.str req.param)))), db)

/-- The route `GET /all-users/:email`. -/
def listAccountsExcept : Handler :=
  route [verifyToken, verifyAdmin] listAccountsExceptBody

/-- The handler body of `PATCH /users/role/:email`; an absent `role` is
written as `null`. -/
def setRoleBody : Handler := fun _ db req =>
  let role := (req.body.get "role").getD .null
  match updateOne db.users (fieldIs "email" (.str req.param))
      (setOp [("role", role), ("status", .str "Verified")]) with
  | .ok (users, m, n) => (.sent 200 (.updateResult m n), { db with users := users })
  | .error e => (.thrown (.store e), db)

/-- The route `PATCH /users/role/:email`. -/
def setRole : Handler := route [verifyToken, verifyAdmin] setRoleBody

/-- The handler body of `PATCH /users/:email`. -/
def requestRoleChangeBody : Handler := fun _ db req =>
  let filter := fieldIs "email" (.str req.param)
  match findOne db.users filter with
  | none => (.sent 404 (.message "User not found or request is pending"), db)
  | some user =>
    if user.get "status" = some (.str "Requested") then
      (.sent 404 (.message "User not found or request is pending"), db)
    else
      match updateOne db.users filter (setOp [("status", .str "Requested")]) with
      | .ok (users, m, n) => (.sent 200 (.updateResult m n), { db with users := users })
      | .error e => (.thrown (.store e), db)

/-- The route `PATCH /users/:email`. -/
def requestRoleChange : Handler := route [verifyToken] requestRoleChangeBody

/-! ## Catalog -/

/-- The handler body of `GET /plants/seller`; the filter is
`{ "seller.email": req.user?.email }`. -/
def listItemsForSellerBody : Handler := fun env db req =>
  let email : Option Value :=
    match req.user with
    | some user => user.get "email"
    | none => none
  match valueFilter env ["seller", "email"] email with
  | .ok filter => (.sent 200 (.rows (findAll db.plants filter)), db)
  | .error e => (.thrown (.store e), db)

/-- The route `GET /plants/seller`. -/
def listItemsForSeller : Handler :=
  route [verifyToken, verifySeller] listItemsForSellerBody

/-- The handler body of `DELETE /plants/:id`. -/
def deleteItemBody : Handler := fun _ db req =>
  match parseObjectId req.param with
  | none => (.thrown .bsonError, db)
  | some id =>
    let result := deleteOne db.plants (fieldIs "_id" (.oid id))
    (.sent 200 (.deleteResult result.2), { db with plants := result.1 })

/-- The route `DELETE /plants/:id`. -/
def deleteItem : Handler := route [verifyToken, verifySeller] deleteItemBody

/-- The amount `incValue` that `PATCH /plants/quantity/:id` passes to `$inc`:
`-quantityToUpdate`, replaced by `quantityToUpdate` when `status === 'increase'`. -/
def incValue (quantityToUpdate : JsNumber) (status : Option Value) : JsNumber :=
  if status = some (.str "increase") then quantityToUpdate else quantityToUpdate.neg

/-- The handler of `PATCH /plants/quantity/:id`, on the destructured body
`{ quantityToUpdate, status }`, where `quantityToUpdate` is the integer written
in the body: `express.json()` reads it as a double, and the driver writes
`incValue` as an int32 or a double. -/
def adjustQuantity (db : Db) (id : String) (quantityToUpdate : Int)
    (status : Option Value) : Outcome × Db :=
  match parseObjectId id with
  | none => (.thrown .bsonError, db)
  | some oid =>
    let filter := fieldIs "_id" (.oid oid)
    match updateOne db.plants filter
        (incOp "quantity" (incValue (toDouble quantityToUpdate) status).toBson) with
    | .ok (plants, m, n) => (.sent 200 (.updateResult m n), { db with plants := plants })
    | .error e => (.thrown (.store e), db)

/-! ## Orders -/

/-- The handler body of `POST /orders`. -/
def placeOrderBody : Handler := fun env db req =>
  match insertOne env.createPk db.orders req.body with
  | .ok (orders, insertedId) =>
    (.sent 200 (.insertResult insertedId), { db with orders := orders })
  | .error e => (.thrown (.store e), db)

/-- The route `POST /orders`. -/
def placeOrder : Handler := route [verifyToken] placeOrderBody

/-- The operator `$toObjectId`: `null` on a missing or `null` input, the id a
24-digit hexadecimal string denotes, an error on anything else. -/
def toObjectId : Option Value → Except StoreError Value
  | none => .ok .null
  | some .null => .ok .null
  | some (.oid n) => .ok (.oid n)
  | some (.str s) =>
    match parseObjectId s with
    | some n => .ok (.oid n)
    | none => .error .conversion
  | some _ => .error .conversion

/-- A pipeline stage that maps each document, failing as a whole when one
document fails. -/
def mapStage (f : Doc → Except StoreError Doc) : List Doc → Except StoreError (List Doc)
  | [] => .ok []
  | d :: rest =>
    match f d with
    | .error e => .error e
    | .ok d' =>
      match mapStage f rest with
      | .error e => .error e
      | .ok rest' => .ok (d' :: rest')

/-- Stage `{ $addFields: { plantId: { $toObjectId: "$plantInfo.plantId" } } }`
on one document. -/
def addPlantId (d : Doc) : Except StoreError Doc :=
  match toObjectId (d.getPath ["plantInfo", "plantId"]) with
  | .ok v => .ok (d.set "plantId" v)
  | .error e => .error e

/-- Stage `$lookup` from `plants` with `localField: 'plantId'`,
`foreignField: '_id'`: each document with the array it receives under
`plantDoc`.  A missing field on either side compares as `null`. -/
def lookupPlants (plants : Collection) (docs : List Doc) : List (Doc × List Doc) :=
  docs.map (fun d =>
    (d, plants.filter (fun p =>
      decide ((p.get "_id").getD .null = (d.get "plantId").getD .null))))

/-- Stage `{ $unwind: "$plantDoc" }`: one document per element of the array,
with `plantDoc` set to that element; none for an empty array. -/
def unwindPlantDoc (joined : List (Doc × List Doc)) : List Doc :=
  joined.flatMap (fun r => r.2.map (fun p => r.1.set "plantDoc" (.obj p)))

/-- Stage `{ $addFields: { f₁: "$path₁", ... } }` on one document: every path
is read in the incoming document. -/
def addFields (specs : List (String × List String)) (d : Doc) : Doc :=
  specs.foldl (fun acc spec => acc.assign spec.1 (d.getPath spec.2)) d

/-- The enrichment common to both order listings, after `$match`. -/
def enrich (plants : Collection) (specs : List (String × List String))
    (matched : List Doc) : Except StoreError (List Doc) :=
  match mapStage addPlantId matched with
  | .error e => .error e
  | .ok withId =>
    .ok (((unwindPlantDoc (lookupPlants plants withId)).map (addFields specs)).map
      (fun d => d.erase "plantDoc"))

/-- The `$addFields` of `GET /customers-orders/:email`. -/
def customerFields : List (String × List String) :=
  [("image", ["plantDoc", "image"]), ("name", ["plantDoc", "name"]),
   ("category", ["plantDoc", "category"]), ("price", ["plantDoc", "price"]),
   ("quantity", ["plantInfo", "totalQuantity"])]

/-- The handler of `GET /customers-orders/:email`. -/
def listOrdersForCustomer : Handler := fun _ db req =>
  let filter := pathIs ["userInfo", "email"] (.str req.param)
  match enrich db.plants customerFields (findAll db.orders filter) with
  | .ok result => (.sent 200 (.rows result), db)
  | .error e => (.thrown (.store e), db)

/-- The handler body of `GET /manage-orders/:email`. -/
def listOrdersForSellerBody : Handler := fun _ db req =>
  let filter := fieldIs "seller" (.str req.param)
  match enrich db.plants [("name", ["plantDoc", "name"])] (findAll db.orders filter) with
  | .ok result => (.sent 200 (.rows result), db)
  | .error e => (.thrown (.store e), db)

/-- The route `GET /manage-orders/:email`. -/
def listOrdersForSeller : Handler :=
  route [verifyToken, verifySeller] listOrdersForSellerBody

/-- The handler of `PATCH /orders/status/:id`; an absent `status` is written
as `null`. -/
def updateOrderStatus : Handler := fun _ db req =>
  match parseObjectId req.param with
  | none => (.thrown .bsonError, db)
  | some id =>
    let status := (req.body.get "status").getD .null
    match updateOne db.orders (fieldIs "_id" (.oid id)) (setOp [("status", status)]) with
    | .ok (orders, m, n) => (.sent 200 (.updateResult m n), { db with orders := orders })
    | .error e => (.thrown (.store e), db)

/-! ## Order deletion: `app.delete('/orders/:id')` -/

/-- The handler of `DELETE /orders/:id`. -/
def deleteOrder : Handler := fun _ db req =>
  match parseObjectId req.param with
  | none => (.thrown .bsonError, db)
  | some id =>
    let filter := fieldIs "_id" (.oid id)
    match findOne db.orders filter with
    | none => (.thrown .typeError, db)
    | some order =>
      if order.get "status" = some (.str "Delivered") then
        (.sent 409 (.message "You can not delete delivered order"), db)
      else
        let result := deleteOne db.orders filter
        (.sent 200 (.deleteResult result.2), { db with orders := result.1 })

/-! ## The role-gated routes -/

/-- The request on which the handler of a chain runs; `none` when a
middleware answers or throws, so that the handler does not run. -/
def admits : List Middleware → Env → Db → Request → Option Request
  | [], _, _, req => some req
  | m :: rest, env, db, req =>
    match m env db req with
    | .next req' => admits rest env db req'
    | .respond _ _ => none
    | .throw _ => none

/-- The five routes registered with `verifyToken` and a role middleware. -/
inductive GatedRoute where
  /-- The route `GET /manage-orders/:email`. -/
  | manageOrders
  /-- The route `GET /plants/seller`. -/
  | plantsSeller
  /-- The route `DELETE /plants/:id`. -/
  | deletePlant
  /-- The route `GET /all-users/:email`. -/
  | allUsers
  /-- The route `PATCH /users/role/:email`. -/
  | usersRole
  deriving DecidableEq

namespace GatedRoute

/-- The route as registered in `src/index.js`. -/
def serve : GatedRoute → Handler
  | manageOrders => listOrdersForSeller
  | plantsSeller => listItemsForSeller
  | deletePlant => deleteItem
  | allUsers => listAccountsExcept
  | usersRole => setRole

/-- The middlewares of the route. -/
def chain : GatedRoute → List Middleware
  | manageOrders => [verifyToken, verifySeller]
  | plantsSeller => [verifyToken, verifySeller]
  | deletePlant => [verifyToken, verifySeller]
  | allUsers => [verifyToken, verifyAdmin]
  | usersRole => [verifyToken, verifyAdmin]

/-- The handler body of the route. -/
def body : GatedRoute → Handler
  | manageOrders => listOrdersForSellerBody
  | plantsSeller => listItemsForSellerBody
  | deletePlant => deleteItemBody
  | allUsers => listAccountsExceptBody
  | usersRole => setRoleBody

/-- The role the route asks for. -/
def role : GatedRoute → String
  | manageOrders => "seller"
  | plantsSeller => "seller"
  | deletePlant => "seller"
  | allUsers => "admin"
  | usersRole => "admin"

end GatedRoute

/-- The account with email `who` exists with role `role`; where several
accounts carry the email, the first one counts, as it does for `findOne`. -/
def HoldsRole (users : Collection) (who role : String) : Prop :=
  ∃ pre acct post, users = pre ++ acct :: post ∧
    (∀ u ∈ pre, u.get "email" ≠ some (.str who)) ∧
    acct.get "email" = some (.str who) ∧ acct.get "role" = some (.str role)

/-- The request carries no token that verifies. -/
def NoValidToken (env : Env) (req : Request) : Prop :=
  req.token = none ∨ req.token = some "" ∨ ∃ t, req.token = some t ∧ env.jwtVerify t = none

/-! ## Vocabulary of the order-listing claim -/

/-- The `_id` of a stored document as `$lookup` compares it: an absent `_id`
compares as `null`. -/
def idOf (d : Doc) : Value := (d.get "_id").getD .null

/-- The value `$toObjectId` gives for the order's `plantInfo.plantId`, `null`
where the conversion fails. -/
def plantIdOf (o : Doc) : Value :=
  match toObjectId (o.getPath ["plantInfo", "plantId"]) with
  | .ok v => v
  | .error _ => .null

/-- The order's `plantInfo.plantId` converts to the `_id` of a catalog item. -/
def resolves (plants : Collection) (o : Doc) : Bool :=
  match toObjectId (o.getPath ["plantInfo", "plantId"]) with
  | .ok v => plants.any (fun p => decide (idOf p = v))
  | .error _ => false

/-- The order's `plantInfo.plantId` can be converted: it is absent, `null`, an
ObjectId or a string of 24 hexadecimal digits. -/
def convertible (o : Doc) : Bool :=
  match toObjectId (o.getPath ["plantInfo", "plantId"]) with
  | .ok _ => true
  | .error _ => false

/-- The document `row` is the order `o` decorated from the catalog item its
`plantInfo.plantId` resolves to: `image`, `name`, `category` and `price` are
the item's, `quantity` is the order's `plantInfo.totalQuantity`, `plantId` is
the converted id, `plantDoc` is absent, and every other field is the order's. -/
def IsRowOf (plants : Collection) (o row : Doc) : Prop :=
  ∃ p ∈ plants, toObjectId (o.getPath ["plantInfo", "plantId"]) = .ok (idOf p) ∧
    row.get "image" = p.get "image" ∧
    row.get "name" = p.get "name" ∧
    row.get "category" = p.get "category" ∧
    row.get "price" = p.get "price" ∧
    row.get "quantity" = o.getPath ["plantInfo", "totalQuantity"] ∧
    row.get "plantDoc" = none ∧
    row.get "plantId" = some (idOf p) ∧
    ∀ f, f ∉ ["image", "name", "category", "price", "quantity", "plantDoc", "plantId"] →
      row.get f = o.get f

/-- The stages of the customer pipeline after `$addFields` of `plantId`. -/
def customerRows (plants : Collection) (withId : List Doc) : List Doc :=
  ((unwindPlantDoc (lookupPlants plants withId)).map (addFields customerFields)).map
    (fun d => d.erase "plantDoc")

/-! ## Sample data -/

/-- The payload `POST /jwt` signs for the body `{ email }`. -/
def session (email : String) : Doc :=
  .cons "email" (.str email) .nil

/-- The operators the sample store knows: `{ $ne: v }` for a value `v` that is
not `null`, which matches the fields that differ from `v` or are missing. -/
def sampleOperators (path : List String) : Doc → Except StoreError (Doc → Bool)
  | .cons "$ne" .null .nil => .error .badQuery
  | .cons "$ne" v .nil => .ok (fun d => !sameAt path v d)
  | _ => .error .badQuery

/-- A sample environment: the token `tok-admin` verifies to the payload
`{ email: 'admin@x.io' }`, `tok-seller` to that of `seller@x.io`, `tok-bob` to
that of `bob@x.io`, and `tok-anon` to the empty payload `{}`. -/
def sampleEnv : Env where
  jwtVerify := fun t =>
    if t = "tok-admin" then some (session "admin@x.io")
    else if t = "tok-seller" then some (session "seller@x.io")
    else if t = "tok-bob" then some (session "bob@x.io")
    else if t = "tok-anon" then some .nil
    else none
  queryOperators := sampleOperators
  now := 1700000000000
  createPk := 1000

/-- An account with role `admin` and no `email` field. -/
def acctNoEmail : Doc :=
  .cons "_id" (.oid 48) (.cons "role" (.str "admin") .nil)

/-- A database whose first account has no `email` field. -/
def ghostDb : Db where
  users := [acctNoEmail, .cons "_id" (.oid 35)
    (.cons "email" (.str "bob@x.io") (.cons "role" (.str "customer") .nil))]
  plants := []
  orders := []

/-- A delivered order with `_id` 1. -/
def orderDelivered : Doc :=
  .cons "_id" (.oid 1) (.cons "status" (.str "Delivered") .nil)

/-- A pending order with `_id` 2. -/
def orderPending : Doc :=
  .cons "_id" (.oid 2) (.cons "status" (.str "Pending") .nil)

/-- A catalog item with `_id` 16 and ten units in stock. -/
def plantFern : Doc :=
  .cons "_id" (.oid 16) (.cons "name" (.str "Fern") (.cons "quantity" (.num 10) .nil))

/-- The account of an administrator. -/
def acctAdmin : Doc :=
  .cons "_id" (.oid 33) (.cons "email" (.str "admin@x.io") (.cons "role" (.str "admin") .nil))

/-- The account of a seller. -/
def acctSeller : Doc :=
  .cons "_id" (.oid 34) (.cons "email" (.str "seller@x.io") (.cons "role" (.str "seller") .nil))

/-- The account of a customer. -/
def acctBob : Doc :=
  .cons "_id" (.oid 35) (.cons "email" (.str "bob@x.io") (.cons "role" (.str "customer") .nil))

/-- A database with three accounts, one catalog item and two orders. -/
def sampleDb : Db where
  users := [acctAdmin, acctSeller, acctBob]
  plants := [plantFern]
  orders := [orderDelivered, orderPending]

/-- A request with the given cookie token and route parameter, without body. -/
def signed (token param : String) : Request where
  token := some token
  param := param
  body := .nil
  user := none

/-- A registration request `POST /users/:email` with the given body. -/
def registration (email : String) (body : Doc) : Request where
  token := none
  param := email
  body := body
  user := none

/-- The sample environment at a later moment: another clock value and another
generated identifier. -/
def laterEnv : Env where
  jwtVerify := sampleEnv.jwtVerify
  queryOperators := sampleEnv.queryOperators
  now := 1700000000500
  createPk := 1001

/-- A request without cookie or body, with the given route parameter. -/
def bare (param : String) : Request where
  token := none
  param := param
  body := .nil
  user := none

/-- A registration body that carries the email. -/
def carolProfile : Doc :=
  .cons "name" (.str "Carol") (.cons "email" (.str "carol@x.io") .nil)

/-- A registration body without an `email` field. -/
def carolNameOnly : Doc :=
  .cons "name" (.str "Carol") .nil

/-- The request `PATCH /orders/status/:id` with body `{ status }`. -/
def statusChange (id : String) (status : Value) : Request where
  token := none
  param := id
  body := .cons "status" status .nil
  user := none

/-- Bob's order of two ferns. -/
def orderFern : Doc :=
  .cons "_id" (.oid 3)
    (.cons "userInfo" (.obj (.cons "email" (.str "bob@x.io") .nil))
      (.cons "plantInfo" (.obj (.cons "plantId" (.str "000000000000000000000010")
        (.cons "totalQuantity" (.num 2) .nil))) .nil))

/-- Bob's order of an item that is no longer in the catalog. -/
def orderGone : Doc :=
  .cons "_id" (.oid 4)
    (.cons "userInfo" (.obj (.cons "email" (.str "bob@x.io") .nil))
      (.cons "plantInfo" (.obj (.cons "plantId" (.str "000000000000000000000011")
        (.cons "totalQuantity" (.num 1) .nil))) .nil))

/-- An order of another buyer. -/
def orderAlice : Doc :=
  .cons "_id" (.oid 5)
    (.cons "userInfo" (.obj (.cons "email" (.str "alice@x.io") .nil))
      (.cons "plantInfo" (.obj (.cons "plantId" (.str "000000000000000000000010")
        (.cons "totalQuantity" (.num 7) .nil))) .nil))

/-- Bob's order whose `plantInfo.plantId` is not the text of an ObjectId. -/
def orderBadRef : Doc :=
  .cons "_id" (.oid 6)
    (.cons "userInfo" (.obj (.cons "email" (.str "bob@x.io") .nil))
      (.cons "plantInfo" (.obj (.cons "plantId" (.str "fern")
        (.cons "totalQuantity" (.num 1) .nil))) .nil))

/-- A database whose orders all carry convertible plant ids. -/
def shopDb : Db where
  users := [acctAdmin, acctSeller, acctBob]
  plants := [plantFern]
  orders := [orderFern, orderGone, orderAlice]

/-- The same database with one more order of Bob, with a malformed plant id. -/
def shopDbBadRef : Db where
  users := [acctAdmin, acctSeller, acctBob]
  plants := [plantFern]
  orders := [orderFern, orderGone, orderAlice, orderBadRef]

/-- A catalog item with `_id` 17 and `2 ^ 53` units in stock. -/
def plantBulk : Doc :=
  .cons "_id" (.oid 17)
    (.cons "name" (.str "Moss") (.cons "quantity" (.num 9007199254740992) .nil))

/-- A database whose catalog holds the bulk item. -/
def bulkDb : Db where
  users := []
  plants := [plantBulk]
  orders := []

/-! ## Lemmas on documents -/

theorem Doc.get_set_same : ∀ (d : Doc) (k : String) (v : Value),
    (d.set k v).get k = some v
  | .nil, k, v => by simp [Doc.set, Doc.get]
  | .cons k0 v0 rest, k, v => by
    have ih := Doc.get_set_same rest k v
    by_cases h : k0 = k
    · simp [Doc.set, Doc.get, h]
    · simp [Doc.set, Doc.get, h, ih]

theorem Doc.get_set_ne : ∀ (d : Doc) (k f : String) (v : Value), k ≠ f →
    (d.set k v).get f = d.get f
  | .nil, k, f, v, h => by simp [Doc.set, Doc.get, h]
  | .cons k0 v0 rest, k, f, v, h => by
    have ih := Doc.get_set_ne rest k f v h
    by_cases h0 : k0 = k
    · subst h0; simp [Doc.set, Doc.get, h]
    · by_cases h1 : k0 = f
      · subst h1; simp [Doc.set, Doc.get, h0]
      · simp [Doc.set, Doc.get, h0, h1, ih]

theorem Doc.get_erase_same : ∀ (d : Doc) (k : String), (d.erase k).get k = none
  | .nil, k => by simp [Doc.erase, Doc.get]
  | .cons k0 v0 rest, k => by
    have ih := Doc.get_erase_same rest k
    by_cases h : k0 = k
    · simp [Doc.erase, h, ih]
    · simp [Doc.erase, Doc.get, h, ih]

theorem Doc.get_erase_ne : ∀ (d : Doc) (k f : String), k ≠ f →
    (d.erase k).get f = d.get f
  | .nil, k, f, _ => by simp [Doc.erase, Doc.get]
  | .cons k0 v0 rest, k, f, h => by
    have ih := Doc.get_erase_ne rest k f h
    by_cases h0 : k0 = k
    · subst h0; simp [Doc.erase, Doc.get, h, ih]
    · by_cases h1 : k0 = f
      · subst h1; simp [Doc.erase, Doc.get, h0]
      · simp [Doc.erase, Doc.get, h0, h1, ih]

/-! ## Lemmas on the store -/

theorem fieldIs_iff (field : String) (v : Value) (d : Doc) :
    fieldIs field v d = true ↔ d.get field = some v := by
  simp [fieldIs]

theorem mem_ids_of_mem {c : Collection} {d : Doc} {v : Value}
    (hd : d ∈ c) (hv : d.get "_id" = some v) : v ∈ ids c := by
  unfold ids
  exact List.mem_map.mpr ⟨d, hd, by simp [hv]⟩

/-- Under the unique index, `findOne` by `_id` returns the document that has
this `_id`. -/
theorem findOne_id_of_mem {c : Collection} {d : Doc} {v : Value}
    (hu : UniqueIds c) (hd : d ∈ c) (hv : d.get "_id" = some v) :
    findOne c (fieldIs "_id" v) = some d := by
  induction c with
  | nil => cases hd
  | cons x rest ih =>
    have hnd : v ∈ ids rest → (x.get "_id").getD .null ≠ v := by
      intro hin heq
      have h1 : (ids (x :: rest)).Nodup := hu
      simp only [ids, List.map_cons, List.nodup_cons] at h1
      exact h1.1 (by rw [heq]; exact hin)
    rcases List.mem_cons.mp hd with rfl | hmem
    · simp [findOne, List.find?, fieldIs, hv]
    · have hx : x.get "_id" ≠ some v := by
        intro hxv
        exact hnd (mem_ids_of_mem hmem hv) (by simp [hxv])
      have hu2 : UniqueIds rest := by
        have h1 : (ids (x :: rest)).Nodup := hu
        simp only [ids, List.map_cons, List.nodup_cons] at h1
        exact h1.2
      have := ih hu2 hmem
      simpa [findOne, List.find?, fieldIs, hx] using this

/-- No document carries an `_id` that is not among the ids. -/
theorem get_id_ne_of_not_mem_ids {c : Collection} {v : Value} (hv : v ∉ ids c) :
    ∀ d ∈ c, d.get "_id" ≠ some v := by
  intro d hd h
  exact hv (mem_ids_of_mem hd h)

theorem filter_fieldNe_of_not_mem_ids {c : Collection} {v : Value} (hv : v ∉ ids c) :
    c.filter (fun d => !fieldIs "_id" v d) = c := by
  apply List.filter_eq_self.mpr
  intro d hd
  simp [fieldIs, get_id_ne_of_not_mem_ids hv d hd]

/-- Under the unique index, `deleteOne` by an `_id` that is present removes
exactly the documents with this `_id` (there is one) and reports one
deletion. -/
theorem deleteOne_id_of_mem {c : Collection} {d : Doc} {v : Value}
    (hu : UniqueIds c) (hd : d ∈ c) (hv : d.get "_id" = some v) :
    deleteOne c (fieldIs "_id" v) = (c.filter (fun x => !fieldIs "_id" v x), 1) := by
  induction c with
  | nil => cases hd
  | cons x rest ih =>
    have h1 : (ids (x :: rest)).Nodup := hu
    simp only [ids, List.map_cons, List.nodup_cons] at h1
    by_cases hx : x.get "_id" = some v
    · have hv2 : v ∉ ids rest := by
        intro hin
        apply h1.1
        simpa [ids, hx] using hin
      have hf := filter_fieldNe_of_not_mem_ids hv2
      simp [deleteOne, fieldIs, hx]
      simpa [fieldIs] using hf.symm
    · have hmem : d ∈ rest := by
        rcases List.mem_cons.mp hd with rfl | hmem
        · exact absurd hv hx
        · exact hmem
      have := ih h1.2 hmem
      simp [deleteOne, fieldIs, hx]
      simp [fieldIs] at this
      simp [this]

/-- The value `findOne` returns is the first match. -/
theorem findOne_some_split {c : Collection} {p : Doc → Bool} {d : Doc}
    (h : findOne c p = some d) :
    ∃ pre post, c = pre ++ d :: post ∧ (∀ x ∈ pre, p x = false) ∧ p d = true := by
  induction c with
  | nil => simp [findOne] at h
  | cons x rest ih =>
    by_cases hx : p x = true
    · have : x = d := by simpa [findOne, List.find?, hx] using h
      subst this
      exact ⟨[], rest, rfl, by simp, hx⟩
    · have hx2 : p x = false := by simpa using hx
      have h2 : findOne rest p = some d := by
        simpa [findOne, List.find?, hx2] using h
      obtain ⟨pre, post, hc, hpre, hd⟩ := ih h2
      refine ⟨x :: pre, post, by simp [hc], ?_, hd⟩
      intro y hy
      rcases List.mem_cons.mp hy with rfl | hy2
      · exact hx2
      · exact hpre y hy2

/-- The first match is the value `findOne` returns. -/
theorem findOne_of_split {p : Doc → Bool} {d : Doc} (pre post : List Doc)
    (hpre : ∀ x ∈ pre, p x = false) (hd : p d = true) :
    findOne (pre ++ d :: post) p = some d := by
  induction pre with
  | nil => simp [findOne, List.find?, hd]
  | cons x rest ih =>
    have hx : p x = false := hpre x (by simp)
    have := ih (fun y hy => hpre y (by simp [hy]))
    simpa [findOne, List.find?, hx] using this

/-- The store answers `null` exactly when no document matches. -/
theorem findOne_none_iff {c : Collection} {p : Doc → Bool} :
    findOne c p = none ↔ ∀ x ∈ c, p x = false := by
  unfold findOne
  rw [List.find?_eq_none]
  simp

/-- The update `updateOne` makes is on the first match, and only there. -/
theorem updateOne_of_split {p : Doc → Bool} {u : Doc → Except StoreError Doc}
    {d d' : Doc} (pre post : List Doc)
    (hpre : ∀ x ∈ pre, p x = false) (hd : p d = true) (hu : u d = .ok d') :
    updateOne (pre ++ d :: post) p u =
      .ok (pre ++ d' :: post, 1, if d' = d then 0 else 1) := by
  induction pre with
  | nil => simp [updateOne, hd, hu]
  | cons x rest ih =>
    have hx : p x = false := hpre x (by simp)
    have := ih (fun y hy => hpre y (by simp [hy]))
    simp [updateOne, hx, this]

/-- The update `updateOne` fails when the update of the first match fails. -/
theorem updateOne_error_of_split {p : Doc → Bool} {u : Doc → Except StoreError Doc}
    {d : Doc} {e : StoreError} (pre post : List Doc)
    (hpre : ∀ x ∈ pre, p x = false) (hd : p d = true) (hu : u d = .error e) :
    updateOne (pre ++ d :: post) p u = .error e := by
  induction pre with
  | nil => simp [updateOne, hd, hu]
  | cons x rest ih =>
    have hx : p x = false := hpre x (by simp)
    have := ih (fun y hy => hpre y (by simp [hy]))
    simp [updateOne, hx, this]

/-- Without a match `updateOne` changes nothing. -/
theorem updateOne_of_no_match {c : Collection} {p : Doc → Bool}
    {u : Doc → Except StoreError Doc} (h : ∀ x ∈ c, p x = false) :
    updateOne c p u = .ok (c, 0, 0) := by
  induction c with
  | nil => simp [updateOne]
  | cons x rest ih =>
    have hx : p x = false := h x (by simp)
    have := ih (fun y hy => h y (by simp [hy]))
    simp [updateOne, hx, this]

/-- The deletion `deleteOne` makes is of the first match, and only of it. -/
theorem deleteOne_of_split {p : Doc → Bool} {d : Doc} (pre post : List Doc)
    (hpre : ∀ x ∈ pre, p x = false) (hd : p d = true) :
    deleteOne (pre ++ d :: post) p = (pre ++ post, 1) := by
  induction pre with
  | nil => simp [deleteOne, hd]
  | cons x rest ih =>
    have hx : p x = false := hpre x (by simp)
    have := ih (fun y hy => hpre y (by simp [hy]))
    simp [deleteOne, hx, this]

/-- Under the unique index the document with a given `_id` splits the
collection into parts that do not carry this `_id`. -/
theorem split_of_unique_id {c : Collection} {d : Doc} {v : Value}
    (hu : UniqueIds c) (hd : d ∈ c) (hv : d.get "_id" = some v) :
    ∃ pre post, c = pre ++ d :: post ∧
      (∀ x ∈ pre, x.get "_id" ≠ some v) ∧ (∀ x ∈ post, x.get "_id" ≠ some v) := by
  obtain ⟨pre, post, hc, hpre, _⟩ := findOne_some_split (findOne_id_of_mem hu hd hv)
  refine ⟨pre, post, hc, ?_, ?_⟩
  · intro x hx
    simpa [fieldIs] using hpre x hx
  · intro x hx hxv
    have hnd : (ids (pre ++ d :: post)).Nodup := hc ▸ hu
    simp only [ids, List.map_append, List.map_cons] at hnd
    have h2 := (List.nodup_append.mp hnd).2.1
    have h3 := (List.nodup_cons.mp h2).1
    apply h3
    simp only [hv, Option.getD_some]
    exact List.mem_map.mpr ⟨x, hx, by simp [hxv]⟩

theorem Doc.set_set_same : ∀ (d : Doc) (k : String) (a b : Value),
    (d.set k a).set k b = d.set k b
  | .nil, k, a, b => by simp [Doc.set]
  | .cons k0 v0 rest, k, a, b => by
    have ih := Doc.set_set_same rest k a b
    by_cases h : k0 = k
    · simp [Doc.set, h]
    · simp [Doc.set, h, ih]

theorem Doc.set_of_get : ∀ (d : Doc) (k : String) (v : Value),
    d.get k = some v → d.set k v = d
  | .nil, k, v, h => by simp [Doc.get] at h
  | .cons k0 v0 rest, k, v, h => by
    by_cases h0 : k0 = k
    · simp [Doc.get, h0] at h
      simp [Doc.set, h0, h]
    · simp [Doc.get, h0] at h
      simp [Doc.set, h0, Doc.set_of_get rest k v h]

/-! ## The unique index is an invariant of the store -/

theorem uniqueIds_nil : UniqueIds [] := by
  simp [UniqueIds, ids]

/-- An insert that succeeds keeps the `_id` values distinct. -/
theorem insertOne_uniqueIds {pk : Nat} {c c' : Collection} {d : Doc} {id : Value}
    (hu : UniqueIds c) (h : insertOne pk c d = .ok (c', id)) : UniqueIds c' := by
  have hshape : c' = c ++ [Doc.cons "_id" id (d.erase "_id")] := by
    unfold insertOne at h
    simp only at h
    split at h
    · cases h
    · injection h with h
      injection h with h1 h2
      rw [← h1, ← h2]
  have hfresh : id ∉ ids c := by
    unfold insertOne at h
    simp only at h
    split at h
    · cases h
    · rename_i hnot
      injection h with h
      injection h with h1 h2
      rw [← h2]
      exact hnot
  rw [hshape]
  unfold UniqueIds ids
  rw [List.map_append, List.nodup_append]
  refine ⟨hu, by simp, ?_⟩
  intro a ha hb
  simp [Doc.get] at hb
  subst hb
  exact hfresh ha

/-- A deletion keeps the `_id` values distinct. -/
theorem deleteOne_uniqueIds {c : Collection} (p : Doc → Bool) (hu : UniqueIds c) :
    UniqueIds (deleteOne c p).1 := by
  have hsub : List.Sublist (deleteOne c p).1 c := by
    induction c with
    | nil => simp [deleteOne]
    | cons x rest ih =>
      have hu2 : UniqueIds rest := by
        have h1 : (ids (x :: rest)).Nodup := hu
        simp only [ids, List.map_cons, List.nodup_cons] at h1
        exact h1.2
      by_cases hx : p x = true
      · simp [deleteOne, hx]
      · simp only [deleteOne, hx]
        exact List.Sublist.cons₂ x (ih hu2)
  exact List.Nodup.sublist (List.Sublist.map _ hsub) hu

/-- An update that does not write `_id` keeps the `_id` values as they are. -/
theorem updateOne_ids {c c' : Collection} {p : Doc → Bool}
    {u : Doc → Except StoreError Doc} {m n : Nat}
    (hid : ∀ d d', u d = .ok d' → d'.get "_id" = d.get "_id")
    (h : updateOne c p u = .ok (c', m, n)) : ids c' = ids c := by
  induction c generalizing c' m n with
  | nil =>
    simp [updateOne] at h
    rw [h.1]
  | cons x rest ih =>
    by_cases hx : p x = true
    · simp only [updateOne, hx, if_true] at h
      cases hux : u x with
      | error e => rw [hux] at h; cases h
      | ok x' =>
        rw [hux] at h
        injection h with h
        injection h with h1 _
        rw [← h1]
        simp [ids, hid x x' hux]
    · simp only [updateOne, hx] at h
      cases hr : updateOne rest p u with
      | error e => rw [hr] at h; cases h
      | ok r =>
        obtain ⟨rest', m', n'⟩ := r
        rw [hr] at h
        injection h with h
        injection h with h1 _
        rw [← h1]
        have := ih hr
        simp only [ids, List.map_cons] at this ⊢
        rw [this]

/-! ## Order deletion -/

/-- C1: under the store's unique `_id` index, for an id that resolves to an
existing order, `deleteOrder` answers 409 and leaves the database unchanged
when that order's status is `Delivered`; for any other status (or none) it
answers 200 with one deletion, and the orders that remain are exactly the
former ones whose `_id` differs, each unchanged and in the same order. -/
theorem deleteOrder_delivered_conflict_else_removed (env : Env) (db : Db) (req : Request)
    (id : Nat) (order : Doc)
    (hid : parseObjectId req.param = some id)
    (hu : UniqueIds db.orders)
    (hmem : order ∈ db.orders)
    (hoid : order.get "_id" = some (.oid id)) :
    (order.get "status" = some (.str "Delivered") →
      deleteOrder env db req =
        (.sent 409 (.message "You can not delete delivered order"), db) ∧
      order ∈ (deleteOrder env db req).2.orders) ∧
    (order.get "status" ≠ some (.str "Delivered") →
      deleteOrder env db req =
        (.sent 200 (.deleteResult 1),
          { db with orders := db.orders.filter (fun d => !fieldIs "_id" (.oid id) d) }) ∧
      (∀ d ∈ (deleteOrder env db req).2.orders, d.get "_id" ≠ some (.oid id)) ∧
      (∀ d ∈ db.orders, d.get "_id" ≠ some (.oid id) →
        d ∈ (deleteOrder env db req).2.orders)) := by
  have hfind := findOne_id_of_mem hu hmem hoid
  have hdel := deleteOne_id_of_mem hu hmem hoid
  constructor
  · intro hs
    have : deleteOrder env db req =
        (.sent 409 (.message "You can not delete delivered order"), db) := by
      simp [deleteOrder, hid, hfind, hs]
    rw [this]
    exact ⟨rfl, hmem⟩
  · intro hs
    have : deleteOrder env db req =
        (.sent 200 (.deleteResult 1),
          { db with orders := db.orders.filter (fun d => !fieldIs "_id" (.oid id) d) }) := by
      simp [deleteOrder, hid, hfind, hs, hdel]
    rw [this]
    refine ⟨rfl, ?_, ?_⟩
    · intro d hd
      have := (List.mem_filter.mp hd).2
      simpa [fieldIs] using this
    · intro d hd hne
      exact List.mem_filter.mpr ⟨hd, by simp [fieldIs, hne]⟩

/-- Witness of C1 on the sample orders: the pending order 2 is deleted, the
delivered order 1 stays. -/
theorem deleteOrder_delivered_conflict_else_removed_witness :
    (parseObjectId (bare "000000000000000000000002").param = some 2 ∧
      UniqueIds sampleDb.orders ∧ orderPending ∈ sampleDb.orders ∧
      orderPending.get "_id" = some (.oid 2)) ∧
    deleteOrder sampleEnv sampleDb (bare "000000000000000000000002") =
      (.sent 200 (.deleteResult 1), { sampleDb with orders := [orderDelivered] }) :=
  ⟨⟨by decide, by decide, by decide, by decide⟩,
    ((deleteOrder_delivered_conflict_else_removed sampleEnv sampleDb
      (bare "000000000000000000000002") 2 orderPending
      (by decide) (by decide) (by decide) (by decide)).2 (by decide)).1.trans (by decide)⟩

/-- C2 (the code departs from the claim): for an id that matches no order,
`deleteOrder` reads `.status` on `null`; it ends with a `TypeError`, sends no
response (so no 404), and leaves the database unchanged. -/
theorem deleteOrder_missing_order_throws (env : Env) (db : Db) (req : Request) (id : Nat)
    (hid : parseObjectId req.param = some id)
    (hnone : ∀ d ∈ db.orders, d.get "_id" ≠ some (.oid id)) :
    deleteOrder env db req = (.thrown .typeError, db) := by
  have hfind : findOne db.orders (fieldIs "_id" (.oid id)) = none := by
    unfold findOne
    apply List.find?_eq_none.mpr
    intro d hd
    simp [fieldIs, hnone d hd]
  simp [deleteOrder, hid, hfind]

/-- Witness of C2: order 3 is not among the sample orders. -/
theorem deleteOrder_missing_order_throws_witness :
    (parseObjectId (bare "000000000000000000000003").param = some 3 ∧
      ∀ d ∈ sampleDb.orders, d.get "_id" ≠ some (.oid 3)) ∧
    deleteOrder sampleEnv sampleDb (bare "000000000000000000000003") =
      (.thrown .typeError, sampleDb) :=
  ⟨⟨by decide, by decide⟩,
    deleteOrder_missing_order_throws sampleEnv sampleDb
      (bare "000000000000000000000003") 3 (by decide) (by decide)⟩

/-! ## Quantity adjustment -/

theorem natAbs_lt_of_safeInt {n : Int} (h : SafeInt n) : n.natAbs < 9007199254740992 := by
  unfold SafeInt at h
  omega

/-- A safe integer is a double. -/
theorem toDouble_of_safeInt {n : Int} (h : SafeInt n) : toDouble n = .fin n := by
  simp [toDouble, natAbs_lt_of_safeInt h]

theorem safeInt_of_inInt32 {n : Int} (h : inInt32 n = true) : SafeInt n := by
  simp only [inInt32, decide_eq_true_eq] at h
  unfold SafeInt
  omega

theorem inInt64_of_safeInt {n : Int} (h : SafeInt n) : inInt64 n = true := by
  unfold SafeInt at h
  simp only [inInt64, decide_eq_true_eq]
  omega

/-- The store number behind a value that denotes an integer. -/
theorem Value.toBson_of_asInt {v : Value} {q : Int} (h : v.asInt = some q) :
    ∃ x, v.toBson = some x ∧
      (x = .int32 q ∨ x = .int64 q ∨ x = .double (.fin q)) := by
  cases v <;> simp only [Value.asInt, Option.some.injEq] at h <;> try cases h
  · by_cases h32 : inInt32 q = true
    · exact ⟨.int32 q, by simp [Value.toBson, h32], Or.inl rfl⟩
    · exact ⟨.double (.fin q), by simp [Value.toBson, h32], Or.inr (Or.inr rfl)⟩
  · exact ⟨_, rfl, Or.inr (Or.inl rfl)⟩
  · exact ⟨_, rfl, Or.inr (Or.inr rfl)⟩

theorem BsonNumber.asInt_toValue_int32 (n : Int) :
    (BsonNumber.int32 n).toValue.asInt = some n := rfl

theorem BsonNumber.asInt_toValue_int64 (n : Int) :
    (BsonNumber.int64 n).toValue.asInt = some n := rfl

theorem BsonNumber.asInt_toValue_double (n : Int) :
    (BsonNumber.double (.fin n)).toValue.asInt = some n := by
  by_cases h : inInt32 n = true
  · simp [BsonNumber.toValue, h, Value.asInt]
  · simp [BsonNumber.toValue, h, Value.asInt]

/-- Within the safe integers `$inc` adds exactly, whatever the types of the
stored number and of the amount. -/
theorem BsonNumber.add_of_safeInt {x : BsonNumber} {q b : Int}
    (hx : x = .int32 q ∨ x = .int64 q ∨ x = .double (.fin q))
    (hq : SafeInt q) (hb : SafeInt b) (hs : SafeInt (q + b)) :
    ∃ sum, x.add (JsNumber.fin b).toBson = some sum ∧ sum.toValue.asInt = some (q + b) := by
  have hdq := toDouble_of_safeInt hq
  have hdb := toDouble_of_safeInt hb
  have hds := toDouble_of_safeInt hs
  have h64 := inInt64_of_safeInt hs
  by_cases hb32 : inInt32 b = true
  · rcases hx with rfl | rfl | rfl
    · by_cases hs32 : inInt32 (q + b) = true
      · exact ⟨.int32 (q + b), by simp [JsNumber.toBson, hb32, BsonNumber.add, hs32], rfl⟩
      · exact ⟨.int64 (q + b), by simp [JsNumber.toBson, hb32, BsonNumber.add, hs32], rfl⟩
    · exact ⟨.int64 (q + b), by simp [JsNumber.toBson, hb32, BsonNumber.add, h64], rfl⟩
    · exact ⟨.double (.fin (q + b)),
        by simp [JsNumber.toBson, hb32, BsonNumber.add, BsonNumber.toDouble, JsNumber.add,
          hdb, hds],
        BsonNumber.asInt_toValue_double _⟩
  · rcases hx with rfl | rfl | rfl
    · exact ⟨.double (.fin (q + b)),
        by simp [JsNumber.toBson, hb32, BsonNumber.add, BsonNumber.toDouble, JsNumber.add,
          hdq, hds],
        BsonNumber.asInt_toValue_double _⟩
    · exact ⟨.double (.fin (q + b)),
        by simp [JsNumber.toBson, hb32, BsonNumber.add, BsonNumber.toDouble, JsNumber.add,
          hdq, hds],
        BsonNumber.asInt_toValue_double _⟩
    · exact ⟨.double (.fin (q + b)),
        by simp [JsNumber.toBson, hb32, BsonNumber.add, BsonNumber.toDouble, JsNumber.add,
          hds],
        BsonNumber.asInt_toValue_double _⟩

/-- The signed amount of a request with a safe integer. -/
theorem incValue_of_safeInt {delta : Int} (status : Option Value) (h : SafeInt delta) :
    incValue (toDouble delta) status =
      .fin (if status = some (.str "increase") then delta else -delta) := by
  rw [toDouble_of_safeInt h]
  by_cases hs : status = some (.str "increase")
  · simp [incValue, hs]
  · simp [incValue, hs, JsNumber.neg]

/-- One call of `adjustQuantity` on the first item with the id, within the safe
integers. -/
theorem adjustQuantity_step (db : Db) (idStr : String) (id : Nat) (item : Doc) (v : Value)
    (q delta : Int) (status : Option Value) (pre post : List Doc)
    (hid : parseObjectId idStr = some id)
    (hc : db.plants = pre ++ item :: post)
    (hpre : ∀ x ∈ pre, x.get "_id" ≠ some (.oid id))
    (hoid : item.get "_id" = some (.oid id))
    (hq : item.get "quantity" = some v) (hv : v.asInt = some q)
    (hsq : SafeInt q) (hsd : SafeInt delta)
    (hsr : SafeInt (q + if status = some (.str "increase") then delta else -delta)) :
    ∃ v' n, adjustQuantity db idStr delta status =
        (.sent 200 (.updateResult 1 n),
          { db with plants := (pre ++ item.set "quantity" v' :: post) }) ∧
      v'.asInt = some (q + if status = some (.str "increase") then delta else -delta) := by
  have hpre2 : ∀ x ∈ pre, fieldIs "_id" (.oid id) x = false := by
    intro x hx
    simp [fieldIs, hpre x hx]
  have hd : fieldIs "_id" (.oid id) item = true := by simp [fieldIs, hoid]
  have hsb : SafeInt (if status = some (.str "increase") then delta else -delta) := by
    unfold SafeInt at hsd ⊢
    split <;> omega
  obtain ⟨x, hx, hkind⟩ := Value.toBson_of_asInt hv
  obtain ⟨sum, hsum, hval⟩ := BsonNumber.add_of_safeInt hkind hsq hsb hsr
  have hu : incOp "quantity" (incValue (toDouble delta) status).toBson item =
      .ok (item.set "quantity" sum.toValue) := by
    rw [incValue_of_safeInt status hsd]
    simp [incOp, hq, hx, hsum]
  have := updateOne_of_split pre post hpre2 hd hu
  exact ⟨sum.toValue, if item.set "quantity" sum.toValue = item then 0 else 1,
    by simp only [adjustQuantity, hid, hc, this], hval⟩

/-- C7, as the code has it: under the store's unique `_id` index, for an item
whose quantity denotes the integer `q`, when `q`, `delta` and the result are
safe integers (magnitude below `2 ^ 53`), `adjustQuantity` writes a quantity
that denotes `q + delta` when the direction is exactly `increase` and
`q - delta` for every other direction value or none; no other field of the
item and no other item changes, and no floor applies: with `q < delta` a
decrease leaves a negative quantity. -/
theorem adjustQuantity_adds_or_subtracts_in_safe_range (db : Db) (idStr : String) (id : Nat)
    (item : Doc) (v : Value) (q delta : Int) (status : Option Value)
    (hid : parseObjectId idStr = some id)
    (hu : UniqueIds db.plants)
    (hmem : item ∈ db.plants)
    (hoid : item.get "_id" = some (.oid id))
    (hq : item.get "quantity" = some v) (hv : v.asInt = some q)
    (hsq : SafeInt q) (hsd : SafeInt delta)
    (hsr : SafeInt (if status = some (.str "increase") then q + delta else q - delta)) :
    ∃ pre post item' n v',
      db.plants = pre ++ item :: post ∧
      adjustQuantity db idStr delta status =
        (.sent 200 (.updateResult 1 n), { db with plants := (pre ++ item' :: post) }) ∧
      item'.get "quantity" = some v' ∧
      (status = some (.str "increase") → v'.asInt = some (q + delta)) ∧
      (status ≠ some (.str "increase") → v'.asInt = some (q - delta)) ∧
      (∀ f, f ≠ "quantity" → item'.get f = item.get f) ∧
      (status ≠ some (.str "increase") → q < delta →
        ∃ r : Int, v'.asInt = some r ∧ r < 0) := by
  obtain ⟨pre, post, hc, hpre, _⟩ := split_of_unique_id hu hmem hoid
  have hsr2 : SafeInt (q + if status = some (.str "increase") then delta else -delta) := by
    by_cases hs : status = some (.str "increase")
    · simpa [hs] using hsr
    · simpa [hs, sub_eq_add_neg] using hsr
  obtain ⟨v', n, hstep, hval⟩ := adjustQuantity_step db idStr id item v q delta status
    pre post hid hc hpre hoid hq hv hsq hsd hsr2
  refine ⟨pre, post, item.set "quantity" v', n, v', hc, hstep, Doc.get_set_same _ _ _,
    ?_, ?_, ?_, ?_⟩
  · intro hs
    simpa [hs] using hval
  · intro hs
    simpa [hs, sub_eq_add_neg] using hval
  · intro f hf
    exact Doc.get_set_ne item "quantity" f _ (Ne.symm hf)
  · intro hs hlt
    refine ⟨q - delta, ?_, by omega⟩
    simpa [hs, sub_eq_add_neg] using hval

/-- Witness of C7 as amended: the sample fern has 10 units; a decrease by 13
with the misspelt direction `decrese` leaves a stock of -3. -/
theorem adjustQuantity_adds_or_subtracts_in_safe_range_witness :
    (parseObjectId "000000000000000000000010" = some 16 ∧ UniqueIds sampleDb.plants ∧
      plantFern ∈ sampleDb.plants ∧ plantFern.get "_id" = some (.oid 16) ∧
      plantFern.get "quantity" = some (.num 10) ∧ (Value.num 10).asInt = some 10 ∧
      SafeInt 10 ∧ SafeInt 13 ∧
      SafeInt (if some (Value.str "decrese") = some (.str "increase") then 10 + 13
        else 10 - 13)) ∧
    (adjustQuantity sampleDb "000000000000000000000010" 13 (some (.str "decrese"))).2.plants =
      [plantFern.set "quantity" (.num (-3))] ∧
    (∃ pre post item' n v',
      sampleDb.plants = pre ++ plantFern :: post ∧
      adjustQuantity sampleDb "000000000000000000000010" 13 (some (.str "decrese")) =
        (.sent 200 (.updateResult 1 n), { sampleDb with plants := (pre ++ item' :: post) }) ∧
      item'.get "quantity" = some v' ∧
      (some (Value.str "decrese") = some (.str "increase") → v'.asInt = some (10 + 13)) ∧
      (some (Value.str "decrese") ≠ some (.str "increase") → v'.asInt = some (10 - 13)) ∧
      (∀ f, f ≠ "quantity" → item'.get f = plantFern.get f) ∧
      (some (Value.str "decrese") ≠ some (.str "increase") → (10 : Int) < 13 →
        ∃ r : Int, v'.asInt = some r ∧ r < 0)) :=
  ⟨⟨by decide, by decide, by decide, by decide, by decide, by decide, by decide, by decide,
      by decide⟩,
    by decide,
    adjustQuantity_adds_or_subtracts_in_safe_range sampleDb "000000000000000000000010" 16
      plantFern (.num 10) 10 13 (some (.str "decrese"))
      (by decide) (by decide) (by decide) (by decide) (by decide) (by decide) (by decide)
      (by decide) (by decide)⟩

/-- C7 as stated fails outside the safe integers: the body integer
`2 ^ 53 + 1` is read as the double `2 ^ 53`, so an `increase` of the sample
fern (10 units) by it stores `2 ^ 53 + 10`, not `q + delta = 2 ^ 53 + 11`. -/
theorem adjustQuantity_rounds_large_delta :
    plantFern.get "quantity" = some (.num 10) ∧
    adjustQuantity sampleDb "000000000000000000000010" 9007199254740993
        (some (.str "increase")) =
      (.sent 200 (.updateResult 1 1),
        { sampleDb with plants := [plantFern.set "quantity" (.num 9007199254741002)] }) ∧
    (Value.num 9007199254741002).asInt ≠ some (10 + 9007199254740993) := by
  decide

/-- C3, as the code has it: under the store's unique `_id` index, for an item
whose quantity denotes the integer `q`, when `q`, `delta`, `q + delta` and
`q - delta` are safe integers (magnitude below `2 ^ 53`), an `increase` by
`delta` followed by a `decrease` by `delta` answers 200 twice, passes through
`q + delta` and leaves a quantity that denotes `q`, with every other field of
the item and every other item as before; likewise a `decrease` followed by an
`increase`, through `q - delta`. -/
theorem adjustQuantity_inverse_in_safe_range (db : Db) (idStr : String) (id : Nat)
    (item : Doc) (v : Value) (q delta : Int)
    (hid : parseObjectId idStr = some id)
    (hu : UniqueIds db.plants)
    (hmem : item ∈ db.plants)
    (hoid : item.get "_id" = some (.oid id))
    (hq : item.get "quantity" = some v) (hv : v.asInt = some q)
    (hsq : SafeInt q) (hsd : SafeInt delta)
    (hsup : SafeInt (q + delta)) (hsdown : SafeInt (q - delta)) :
    ∃ pre post, db.plants = pre ++ item :: post ∧
      (∃ mid last n m vmid vlast,
        adjustQuantity db idStr delta (some (.str "increase")) =
          (.sent 200 (.updateResult 1 n), { db with plants := (pre ++ mid :: post) }) ∧
        mid.get "quantity" = some vmid ∧ vmid.asInt = some (q + delta) ∧
        adjustQuantity (adjustQuantity db idStr delta (some (.str "increase"))).2
            idStr delta (some (.str "decrease")) =
          (.sent 200 (.updateResult 1 m), { db with plants := (pre ++ last :: post) }) ∧
        last.get "quantity" = some vlast ∧ vlast.asInt = some q ∧
        ∀ f, f ≠ "quantity" → last.get f = item.get f) ∧
      (∃ mid last n m vmid vlast,
        adjustQuantity db idStr delta (some (.str "decrease")) =
          (.sent 200 (.updateResult 1 n), { db with plants := (pre ++ mid :: post) }) ∧
        mid.get "quantity" = some vmid ∧ vmid.asInt = some (q - delta) ∧
        adjustQuantity (adjustQuantity db idStr delta (some (.str "decrease"))).2
            idStr delta (some (.str "increase")) =
          (.sent 200 (.updateResult 1 m), { db with plants := (pre ++ last :: post) }) ∧
        last.get "quantity" = some vlast ∧ vlast.asInt = some q ∧
        ∀ f, f ≠ "quantity" → last.get f = item.get f) := by
  obtain ⟨pre, post, hc, hpre, _⟩ := split_of_unique_id hu hmem hoid
  have key : ∀ (s1 s2 : Option Value) (a : Int),
      (if s1 = some (.str "increase") then delta else -delta) = a →
      (if s2 = some (.str "increase") then delta else -delta) = -a → SafeInt (q + a) →
      ∃ mid last n m vmid vlast,
        adjustQuantity db idStr delta s1 =
          (.sent 200 (.updateResult 1 n), { db with plants := (pre ++ mid :: post) }) ∧
        mid.get "quantity" = some vmid ∧ vmid.asInt = some (q + a) ∧
        adjustQuantity (adjustQuantity db idStr delta s1).2 idStr delta s2 =
          (.sent 200 (.updateResult 1 m), { db with plants := (pre ++ last :: post) }) ∧
        last.get "quantity" = some vlast ∧ vlast.asInt = some q ∧
        ∀ f, f ≠ "quantity" → last.get f = item.get f := by
    intro s1 s2 a ha hb hsa
    obtain ⟨v1, n, h1, hv1⟩ := adjustQuantity_step db idStr id item v q delta s1 pre post
      hid hc hpre hoid hq hv hsq hsd (by rw [ha]; exact hsa)
    rw [ha] at hv1
    have hoid1 : (item.set "quantity" v1).get "_id" = some (.oid id) := by
      rw [Doc.get_set_ne item "quantity" "_id" _ (by decide)]; exact hoid
    obtain ⟨v2, m, h2, hv2⟩ := adjustQuantity_step
      { db with plants := (pre ++ item.set "quantity" v1 :: post) } idStr id
      (item.set "quantity" v1) v1 (q + a) delta s2 pre post hid rfl hpre hoid1
      (Doc.get_set_same _ _ _) hv1 hsa hsd
      (by rw [hb]; simpa using hsq)
    rw [hb] at hv2
    refine ⟨item.set "quantity" v1, (item.set "quantity" v1).set "quantity" v2, n, m, v1, v2,
      h1, Doc.get_set_same _ _ _, hv1, ?_, Doc.get_set_same _ _ _, by simpa using hv2, ?_⟩
    · rw [h1]
      exact h2
    · intro f hf
      rw [Doc.get_set_ne _ "quantity" f _ (Ne.symm hf),
        Doc.get_set_ne _ "quantity" f _ (Ne.symm hf)]
  refine ⟨pre, post, hc, ?_, ?_⟩
  · exact key (some (.str "increase")) (some (.str "decrease")) delta (by simp) (by simp) hsup
  · have := key (some (.str "decrease")) (some (.str "increase")) (-delta) (by simp)
      (by simp) (by simpa [sub_eq_add_neg] using hsdown)
    simpa [sub_eq_add_neg] using this

/-- Witness of C3 as amended: the sample fern, quantity 10, delta 3: a
decrease gives 7 and the following increase gives 10 again. -/
theorem adjustQuantity_inverse_in_safe_range_witness :
    (parseObjectId "000000000000000000000010" = some 16 ∧ UniqueIds sampleDb.plants ∧
      plantFern ∈ sampleDb.plants ∧ plantFern.get "_id" = some (.oid 16) ∧
      plantFern.get "quantity" = some (.num 10) ∧ (Value.num 10).asInt = some 10 ∧
      SafeInt 10 ∧ SafeInt 3 ∧ SafeInt (10 + 3) ∧ SafeInt (10 - 3)) ∧
    (adjustQuantity sampleDb "000000000000000000000010" 3 (some (.str "decrease"))).2.plants =
      [plantFern.set "quantity" (.num 7)] ∧
    (adjustQuantity (adjustQuantity sampleDb "000000000000000000000010" 3
      (some (.str "decrease"))).2 "000000000000000000000010" 3 (some (.str "increase"))).2 =
      sampleDb ∧
    ∃ pre post, sampleDb.plants = pre ++ plantFern :: post ∧
      ∃ last vlast m,
        adjustQuantity (adjustQuantity sampleDb "000000000000000000000010" 3
            (some (.str "decrease"))).2 "000000000000000000000010" 3
            (some (.str "increase")) =
          (.sent 200 (.updateResult 1 m), { sampleDb with plants := (pre ++ last :: post) }) ∧
        last.get "quantity" = some vlast ∧ vlast.asInt = some 10 := by
  obtain ⟨pre, post, hc, _, ⟨_, last, _, m, _, vlast, _, _, _, h4, h5, h6, _⟩⟩ :=
    adjustQuantity_inverse_in_safe_range sampleDb "000000000000000000000010" 16
      plantFern (.num 10) 10 3 (by decide) (by decide) (by decide) (by decide) (by decide)
      (by decide) (by decide) (by decide) (by decide) (by decide)
  exact ⟨⟨by decide, by decide, by decide, by decide, by decide, by decide, by decide,
    by decide, by decide, by decide⟩, by decide, by decide,
    pre, post, hc, last, vlast, m, h4, h5, h6⟩

/-- C3 as stated fails outside the safe integers: with a stock of `2 ^ 53`, an
`increase` by 1 is rounded back to `2 ^ 53`, and the `decrease` by 1 that
follows leaves `2 ^ 53 - 1`, not the original quantity. -/
theorem adjustQuantity_inverse_fails_at_two_pow_53 :
    plantBulk.get "quantity" = some (.num 9007199254740992) ∧
    (adjustQuantity bulkDb "000000000000000000000011" 1 (some (.str "increase"))).2 =
      bulkDb ∧
    adjustQuantity
        (adjustQuantity bulkDb "000000000000000000000011" 1 (some (.str "increase"))).2
        "000000000000000000000011" 1 (some (.str "decrease")) =
      (.sent 200 (.updateResult 1 1),
        { bulkDb with plants := [plantBulk.set "quantity" (.num 9007199254740991)] }) ∧
    (Value.num 9007199254740991).asInt ≠ some 9007199254740992 := by
  decide

/-! ## Sessions -/

/-- With a token that verifies, `verifyToken` passes the request on with
`req.user` set. -/
theorem route_verifyToken_of_valid (rest : List Middleware) (handler : Handler)
    (env : Env) (db : Db) (req : Request) (t : String) (who : Doc)
    (ht : req.token = some t) (hne : t ≠ "") (hv : env.jwtVerify t = some who) :
    route (verifyToken :: rest) handler env db req =
      route rest handler env db { req with user := some who } := by
  simp [route, verifyToken, ht, hne, hv]

/-- Without a token that verifies, `verifyToken` answers 401 and the rest of
the chain does not run. -/
theorem route_verifyToken_of_invalid (rest : List Middleware) (handler : Handler)
    (env : Env) (db : Db) (req : Request)
    (h : req.token = none ∨ req.token = some "" ∨
      ∃ t, req.token = some t ∧ env.jwtVerify t = none) :
    route (verifyToken :: rest) handler env db req =
      (.sent 401 (.message "unauthorized access"), db) := by
  rcases h with h | h | ⟨t, ht, hv⟩
  · simp [route, verifyToken, h]
  · simp [route, verifyToken, h]
  · by_cases hne : t = ""
    · simp [route, verifyToken, ht, hne]
    · simp [route, verifyToken, ht, hne, hv]

/-! ## Role requests -/

/-- The handler body of `PATCH /users/:email` on the first account with the
email. -/
theorem requestRoleChangeBody_of_split (env : Env) (db : Db) (req : Request)
    (pre post : List Doc) (acct : Doc)
    (hc : db.users = pre ++ acct :: post)
    (hpre : ∀ u ∈ pre, u.get "email" ≠ some (.str req.param))
    (hacct : acct.get "email" = some (.str req.param)) :
    (acct.get "status" = some (.str "Requested") →
      requestRoleChangeBody env db req =
        (.sent 404 (.message "User not found or request is pending"), db)) ∧
    (acct.get "status" ≠ some (.str "Requested") →
      requestRoleChangeBody env db req =
        (.sent 200 (.updateResult 1 1),
          { db with users := (pre ++ acct.set "status" (.str "Requested") :: post) })) := by
  have hpre2 : ∀ x ∈ pre, fieldIs "email" (.str req.param) x = false := by
    intro x hx
    simp [fieldIs, hpre x hx]
  have hd : fieldIs "email" (.str req.param) acct = true := by simp [fieldIs, hacct]
  have hfind := findOne_of_split pre post hpre2 hd
  constructor
  · intro hs
    simp [requestRoleChangeBody, hc, hfind, hs]
  · intro hs
    have hu : setOp [("status", .str "Requested")] acct =
        .ok (acct.set "status" (.str "Requested")) := by
      simp [setOp, Doc.setAll]
    have hupd := updateOne_of_split pre post hpre2 hd hu
    have hchg : acct.set "status" (.str "Requested") ≠ acct := by
      intro h
      apply hs
      rw [← h]
      exact Doc.get_set_same _ _ _
    simp [requestRoleChangeBody, hc, hfind, hs, hupd, hchg]

/-- C6: with a valid session, `requestRoleChange` answers 404 and leaves the
database unchanged when no account has the email, and when the (first) account
with the email has status `Requested`; otherwise it answers 200, sets that
account's status to `Requested`, changes no other field of it and no other
account, and the same request repeated right after answers 404 and changes
nothing. -/
theorem requestRoleChange_debounced (env : Env) (db : Db) (req : Request) (t : String)
    (who : Doc)
    (ht : req.token = some t) (hne : t ≠ "") (hv : env.jwtVerify t = some who) :
    ((∀ u ∈ db.users, u.get "email" ≠ some (.str req.param)) →
      requestRoleChange env db req =
        (.sent 404 (.message "User not found or request is pending"), db)) ∧
    (∀ (pre post : List Doc) (acct : Doc),
      db.users = pre ++ acct :: post →
      (∀ u ∈ pre, u.get "email" ≠ some (.str req.param)) →
      acct.get "email" = some (.str req.param) →
      (acct.get "status" = some (.str "Requested") →
        requestRoleChange env db req =
          (.sent 404 (.message "User not found or request is pending"), db)) ∧
      (acct.get "status" ≠ some (.str "Requested") →
        requestRoleChange env db req =
          (.sent 200 (.updateResult 1 1),
            { db with users := (pre ++ acct.set "status" (.str "Requested") :: post) }) ∧
        (acct.set "status" (.str "Requested")).get "status" = some (.str "Requested") ∧
        (∀ f, f ≠ "status" → (acct.set "status" (.str "Requested")).get f = acct.get f) ∧
        requestRoleChange env (requestRoleChange env db req).2 req =
          (.sent 404 (.message "User not found or request is pending"),
            (requestRoleChange env db req).2))) := by
  have hroute : ∀ db0 : Db, requestRoleChange env db0 req =
      requestRoleChangeBody env db0 { req with user := some who } := by
    intro db0
    unfold requestRoleChange
    rw [route_verifyToken_of_valid [] _ env db0 req t who ht hne hv]
    rfl
  refine ⟨?_, ?_⟩
  · intro hnone
    have hfind : findOne db.users (fieldIs "email" (.str req.param)) = none := by
      apply findOne_none_iff.mpr
      intro x hx
      simp [fieldIs, hnone x hx]
    rw [hroute]
    simp [requestRoleChangeBody, hfind]
  · intro pre post acct hc hpre hacct
    have h1 := requestRoleChangeBody_of_split env db { req with user := some who }
      pre post acct hc hpre hacct
    refine ⟨fun hs => by rw [hroute]; exact h1.1 hs, fun hs => ?_⟩
    have hfirst := h1.2 hs
    have hemail : (acct.set "status" (.str "Requested")).get "email" =
        some (.str req.param) := by
      rw [Doc.get_set_ne acct "status" "email" _ (by decide)]; exact hacct
    have h2 := requestRoleChangeBody_of_split env
      { db with users := (pre ++ acct.set "status" (.str "Requested") :: post) }
      { req with user := some who } pre post (acct.set "status" (.str "Requested"))
      rfl hpre hemail
    refine ⟨by rw [hroute]; exact hfirst, Doc.get_set_same _ _ _, ?_, ?_⟩
    · intro f hf
      exact Doc.get_set_ne acct "status" f _ (Ne.symm hf)
    · rw [hroute db, hfirst, hroute]
      exact h2.1 (Doc.get_set_same _ _ _)

/-- Witness of C6: Bob asks for a role change twice. -/
theorem requestRoleChange_debounced_witness :
    ((signed "tok-bob" "bob@x.io").token = some "tok-bob" ∧ "tok-bob" ≠ "" ∧
      sampleEnv.jwtVerify "tok-bob" = some (session "bob@x.io")) ∧
    (sampleDb.users = [acctAdmin, acctSeller] ++ acctBob :: [] ∧
      (∀ u ∈ [acctAdmin, acctSeller], u.get "email" ≠ some (.str "bob@x.io")) ∧
      acctBob.get "email" = some (.str "bob@x.io") ∧
      acctBob.get "status" ≠ some (.str "Requested")) ∧
    requestRoleChange sampleEnv sampleDb (signed "tok-bob" "bob@x.io") =
      (.sent 200 (.updateResult 1 1),
        { sampleDb with
          users := [acctAdmin, acctSeller, acctBob.set "status" (.str "Requested")] }) ∧
    requestRoleChange sampleEnv
        (requestRoleChange sampleEnv sampleDb (signed "tok-bob" "bob@x.io")).2
        (signed "tok-bob" "bob@x.io") =
      (.sent 404 (.message "User not found or request is pending"),
        (requestRoleChange sampleEnv sampleDb (signed "tok-bob" "bob@x.io")).2) :=
  have h := ((requestRoleChange_debounced sampleEnv sampleDb (signed "tok-bob" "bob@x.io")
    "tok-bob" (session "bob@x.io") (by decide) (by decide) (by decide)).2
      [acctAdmin, acctSeller] [] acctBob (by decide) (by decide) (by decide)).2 (by decide)
  ⟨⟨by decide, by decide, by decide⟩, ⟨by decide, by decide, by decide, by decide⟩,
    h.1, h.2.2.2⟩

/-! ## Registration -/

/-- What `insertOne` stores when it succeeds. -/
theorem insertOne_ok_shape {pk : Nat} {c c' : Collection} {d : Doc} {id : Value}
    (h : insertOne pk c d = .ok (c', id)) :
    c' = c ++ [Doc.cons "_id" id (d.erase "_id")] := by
  unfold insertOne at h
  simp only at h
  split at h
  · cases h
  · injection h with h
    injection h with h1 h2
    rw [← h1, ← h2]

/-- The document `upsertAccount` hands to `insertOne`, read field by field. -/
theorem registered_get (body : Doc) (now : Int) (id : Value) (f : String) :
    (Doc.cons "_id" id
      ((body.setAll [("role", .str "customer"), ("timeStamp", .num now)]).erase "_id")).get f =
      if f = "_id" then some id
      else if f = "timeStamp" then some (.num now)
      else if f = "role" then some (.str "customer")
      else body.get f := by
  by_cases h0 : f = "_id"
  · simp [Doc.get, h0]
  · have h0' : "_id" ≠ f := fun h => h0 h.symm
    simp only [Doc.get, h0', if_false, h0, Doc.setAll]
    rw [Doc.get_erase_ne _ "_id" f h0']
    by_cases h1 : f = "timeStamp"
    · subst h1
      simp [Doc.get_set_same]
    · have h1' : "timeStamp" ≠ f := fun h => h1 h.symm
      rw [Doc.get_set_ne _ "timeStamp" f _ h1']
      by_cases h2 : f = "role"
      · subst h2
        simp [Doc.get_set_same]
      · have h2' : "role" ≠ f := fun h => h2 h.symm
        rw [Doc.get_set_ne _ "role" f _ h2']
        simp [h1, h2]

/-- C5, as the code has it: when an account with the email exists already, or
the first body carries the path email in its `email` field and the first call
answers (its insert does not fail on a duplicate `_id`), the second call with
the same email inserts nothing, leaves the database as the first call left it
and returns the first account with that email; the two calls together insert
at most one account, and when no account had the email before, the account
returned is the document the first call stored: the first body with role
`customer` and the time stamp of the first call. -/
theorem upsertAccount_second_call_returns_stored (env1 env2 : Env) (db : Db)
    (req1 req2 : Request)
    (hparam : req2.param = req1.param)
    (hstored : (∃ u ∈ db.users, u.get "email" = some (.str req1.param)) ∨
      (req1.body.get "email" = some (.str req1.param) ∧
        ∃ b, (upsertAccount env1 db req1).1 = .sent 200 b)) :
    ∃ acct,
      findOne (upsertAccount env1 db req1).2.users (fieldIs "email" (.str req1.param)) =
        some acct ∧
      upsertAccount env2 (upsertAccount env1 db req1).2 req2 =
        (.sent 200 (.userExists "User Already exist." acct),
          (upsertAccount env1 db req1).2) ∧
      ((upsertAccount env1 db req1).2.users = db.users ∨
        (upsertAccount env1 db req1).2.users = db.users ++ [acct]) ∧
      ((∀ u ∈ db.users, u.get "email" ≠ some (.str req1.param)) →
        (upsertAccount env1 db req1).2.users = db.users ++ [acct] ∧
        acct.get "role" = some (.str "customer") ∧
        acct.get "timeStamp" = some (.num env1.now) ∧
        ∀ f, f ≠ "_id" → f ≠ "role" → f ≠ "timeStamp" → acct.get f = req1.body.get f) := by
  cases hfind : findOne db.users (fieldIs "email" (.str req1.param)) with
  | some acct0 =>
    have h1 : upsertAccount env1 db req1 =
        (.sent 200 (.userExists "User Already exist." acct0), db) := by
      simp [upsertAccount, hfind]
    refine ⟨acct0, by rw [h1]; exact hfind, ?_, Or.inl (by rw [h1]), ?_⟩
    · rw [h1]
      simp [upsertAccount, hparam, hfind]
    · intro hnone
      obtain ⟨pre, post, hc, _, hd⟩ := findOne_some_split hfind
      have hmem : acct0 ∈ db.users := by rw [hc]; simp
      exact absurd ((fieldIs_iff _ _ _).mp hd) (hnone acct0 hmem)
  | none =>
    have hnone := findOne_none_iff.mp hfind
    rcases hstored with ⟨u, hu, hue⟩ | ⟨hbody, b, hb⟩
    · have := hnone u hu
      simp [fieldIs, hue] at this
    · cases hins : insertOne env1.createPk db.users
          (req1.body.setAll [("role", .str "customer"), ("timeStamp", .num env1.now)]) with
      | error e =>
        have : (upsertAccount env1 db req1).1 = .thrown (.store e) := by
          simp [upsertAccount, hfind, hins]
        rw [this] at hb
        cases hb
      | ok r =>
        obtain ⟨users', id⟩ := r
        have hshape := insertOne_ok_shape hins
        have h1 : upsertAccount env1 db req1 =
            (.sent 200 (.insertResult id), { db with users := users' }) := by
          simp [upsertAccount, hfind, hins]
        have hget := registered_get req1.body env1.now id
        have hmatch : fieldIs "email" (.str req1.param)
            (Doc.cons "_id" id ((req1.body.setAll
              [("role", .str "customer"), ("timeStamp", .num env1.now)]).erase "_id")) =
            true := by
          rw [fieldIs_iff, hget "email"]
          simpa using hbody
        have hfind2 : findOne users' (fieldIs "email" (.str req1.param)) =
            some (Doc.cons "_id" id ((req1.body.setAll
              [("role", .str "customer"), ("timeStamp", .num env1.now)]).erase "_id")) := by
          rw [hshape]
          exact findOne_of_split db.users [] hnone hmatch
        refine ⟨_, by rw [h1]; exact hfind2, ?_, Or.inr (by rw [h1]; exact hshape), ?_⟩
        · rw [h1]
          simp [upsertAccount, hparam, hfind2]
        · intro _
          refine ⟨by rw [h1]; exact hshape, ?_, ?_, ?_⟩
          · rw [hget "role"]; simp
          · rw [hget "timeStamp"]; simp
          · intro f h0 h1 h2
            rw [hget f]; simp [h0, h1, h2]

/-- Witness of C5 as amended: Carol registers twice with her email in the
body; the second call returns the account the first one stored. -/
theorem upsertAccount_second_call_returns_stored_witness :
    ((registration "carol@x.io" carolProfile).param =
        (registration "carol@x.io" carolProfile).param ∧
      (registration "carol@x.io" carolProfile).body.get "email" =
        some (.str (registration "carol@x.io" carolProfile).param) ∧
      (upsertAccount sampleEnv sampleDb (registration "carol@x.io" carolProfile)).1 =
        .sent 200 (.insertResult (.oid 1000))) ∧
    ∃ acct,
      upsertAccount laterEnv
          (upsertAccount sampleEnv sampleDb (registration "carol@x.io" carolProfile)).2
          (registration "carol@x.io" carolProfile) =
        (.sent 200 (.userExists "User Already exist." acct),
          (upsertAccount sampleEnv sampleDb (registration "carol@x.io" carolProfile)).2) ∧
      ((upsertAccount sampleEnv sampleDb (registration "carol@x.io" carolProfile)).2.users =
          sampleDb.users ∨
        (upsertAccount sampleEnv sampleDb (registration "carol@x.io" carolProfile)).2.users =
          sampleDb.users ++ [acct]) := by
  obtain ⟨acct, _, h2, h3, _⟩ :=
    upsertAccount_second_call_returns_stored sampleEnv laterEnv sampleDb
      (registration "carol@x.io" carolProfile) (registration "carol@x.io" carolProfile) rfl
      (Or.inr ⟨by decide, ⟨.insertResult (.oid 1000), by decide⟩⟩)
  exact ⟨⟨rfl, by decide, by decide⟩, acct, h2, h3⟩

/-- C5 as stated fails: with a body that has no `email` field the first call
stores an account that the filter `{ email }` of the second call does not
find, so the second call inserts again; two calls with the same path email
leave two new accounts. -/
theorem upsertAccount_twice_without_email_inserts_twice :
    (upsertAccount laterEnv
        (upsertAccount sampleEnv sampleDb (registration "carol@x.io" carolNameOnly)).2
        (registration "carol@x.io" carolNameOnly)).1 =
      .sent 200 (.insertResult (.oid 1001)) ∧
    (upsertAccount laterEnv
        (upsertAccount sampleEnv sampleDb (registration "carol@x.io" carolNameOnly)).2
        (registration "carol@x.io" carolNameOnly)).2 ≠
      (upsertAccount sampleEnv sampleDb (registration "carol@x.io" carolNameOnly)).2 ∧
    (upsertAccount laterEnv
        (upsertAccount sampleEnv sampleDb (registration "carol@x.io" carolNameOnly)).2
        (registration "carol@x.io" carolNameOnly)).2.users.length =
      sampleDb.users.length + 2 := by
  decide

/-! ## The authorization gate -/

/-- When the chain admits the request, the route is the handler on the request
the chain passed on. -/
theorem route_of_admits (ms : List Middleware) (handler : Handler) (env : Env) (db : Db)
    (req r : Request) (h : admits ms env db req = some r) :
    route ms handler env db req = handler env db r := by
  induction ms generalizing req with
  | nil =>
    simp [admits] at h
    simp [route, h]
  | cons m rest ih =>
    simp only [admits] at h
    simp only [route]
    cases hm : m env db req with
    | next req' =>
      rw [hm] at h
      exact ih req' h
    | respond st b => rw [hm] at h; cases h
    | throw f => rw [hm] at h; cases h

/-- When the chain does not admit the request, the answer does not depend on
the handler and the database is unchanged. -/
theorem route_of_not_admits (ms : List Middleware) (env : Env) (db : Db) (req : Request)
    (h : admits ms env db req = none) (h1 h2 : Handler) :
    route ms h1 env db req = route ms h2 env db req ∧ (route ms h1 env db req).2 = db := by
  induction ms generalizing req with
  | nil => simp [admits] at h
  | cons m rest ih =>
    simp only [admits] at h
    simp only [route]
    cases hm : m env db req with
    | next req' =>
      rw [hm] at h
      exact ih req' h
    | respond st b => simp
    | throw f => simp

theorem holdsRole_iff_findOne (users : Collection) (who role : String) :
    HoldsRole users who role ↔
      ∃ acct, findOne users (fieldIs "email" (.str who)) = some acct ∧
        acct.get "role" = some (.str role) := by
  constructor
  · rintro ⟨pre, acct, post, hc, hpre, he, hr⟩
    refine ⟨acct, ?_, hr⟩
    rw [hc]
    exact findOne_of_split pre post (fun x hx => by simp [fieldIs, hpre x hx])
      (by simp [fieldIs, he])
  · rintro ⟨acct, hf, hr⟩
    obtain ⟨pre, post, hc, hpre, hd⟩ := findOne_some_split hf
    refine ⟨pre, acct, post, hc, ?_, (fieldIs_iff _ _ _).mp hd, hr⟩
    intro u hu
    simpa [fieldIs] using hpre u hu

theorem pathIs_single (k : String) (v : Value) : pathIs [k] v = fieldIs k v := by
  funext d
  simp only [pathIs, fieldIs, Doc.getPath, Value.getPath]
  cases d.get k with
  | none => simp
  | some w => cases w <;> simp [Value.getPath]

/-- For a string the filter `{ email }` is the equality on `email`. -/
theorem Value.same_str (s : String) (w : Value) :
    Value.same (.str s) w = decide (Value.str s = w) := by
  cases w <;> simp [Value.same, Value.toBson]

theorem valueFilter_email_str (env : Env) (who : String) :
    valueFilter env ["email"] (some (.str who)) = .ok (fieldIs "email" (.str who)) := by
  have h : sameAt ["email"] (.str who) = fieldIs "email" (.str who) := by
    rw [← pathIs_single]
    funext d
    simp only [sameAt, pathIs]
    cases d.getPath ["email"] with
    | none => simp
    | some w => simp [Value.same_str, eq_comm]
  simp [valueFilter, h]

/-- The middleware `verifyAdmin` after `verifyToken`, for a payload whose
`email` is a string. -/
theorem verifyAdmin_of_user (env : Env) (db : Db) (req : Request) (payload : Doc)
    (who : String) (hu : req.user = some payload)
    (he : payload.get "email" = some (.str who)) :
    (HoldsRole db.users who "admin" → verifyAdmin env db req = .next req) ∧
    (¬ HoldsRole db.users who "admin" →
      verifyAdmin env db req =
        .respond 403 (.message "forbidden access! Action only Admin")) := by
  rw [holdsRole_iff_findOne]
  have hf0 := valueFilter_email_str env who
  constructor
  · rintro ⟨acct, hf, hr⟩
    simp [verifyAdmin, hu, he, hf0, hf, hr]
  · intro hno
    cases hf : findOne db.users (fieldIs "email" (.str who)) with
    | none => simp [verifyAdmin, hu, he, hf0, hf]
    | some acct =>
      have hr : acct.get "role" ≠ some (.str "admin") := fun hr => hno ⟨acct, hf, hr⟩
      simp [verifyAdmin, hu, he, hf0, hf, hr]

/-- The middleware `verifySeller` after `verifyToken`, for a payload whose
`email` is a string. -/
theorem verifySeller_of_user (env : Env) (db : Db) (req : Request) (payload : Doc)
    (who : String) (hu : req.user = some payload)
    (he : payload.get "email" = some (.str who)) :
    (HoldsRole db.users who "seller" → verifySeller env db req = .next req) ∧
    (¬ HoldsRole db.users who "seller" →
      verifySeller env db req =
        .respond 403 (.message "forbidden access! Action only  Seller")) := by
  rw [holdsRole_iff_findOne]
  have hf0 := valueFilter_email_str env who
  constructor
  · rintro ⟨acct, hf, hr⟩
    simp [verifySeller, hu, he, hf0, hf, hr]
  · intro hno
    cases hf : findOne db.users (fieldIs "email" (.str who)) with
    | none => simp [verifySeller, hu, he, hf0, hf]
    | some acct =>
      have hr : acct.get "role" ≠ some (.str "seller") := fun hr => hno ⟨acct, hf, hr⟩
      simp [verifySeller, hu, he, hf0, hf, hr]

theorem GatedRoute.serve_eq_route (rt : GatedRoute) :
    rt.serve = route rt.chain rt.body := by
  cases rt <;> rfl

/-- What the chain of a gated route does with a request, case by case. -/
theorem GatedRoute.admits_cases (rt : GatedRoute) (env : Env) (db : Db) (req : Request) :
    (NoValidToken env req →
      admits rt.chain env db req = none ∧
      rt.serve env db req = (.sent 401 (.message "unauthorized access"), db)) ∧
    (∀ t payload who, req.token = some t → t ≠ "" → env.jwtVerify t = some payload →
      payload.get "email" = some (.str who) →
      (HoldsRole db.users who rt.role →
        admits rt.chain env db req = some { req with user := some payload }) ∧
      (¬ HoldsRole db.users who rt.role →
        admits rt.chain env db req = none ∧
        ∃ m, rt.serve env db req = (.sent 403 (.message m), db))) := by
  constructor
  · intro h
    have h401 : verifyToken env db req = .respond 401 (.message "unauthorized access") := by
      rcases h with h | h | ⟨t, ht, hv⟩
      · simp [verifyToken, h]
      · simp [verifyToken, h]
      · by_cases hne : t = ""
        · simp [verifyToken, ht, hne]
        · simp [verifyToken, ht, hne, hv]
    rw [GatedRoute.serve_eq_route]
    cases rt <;>
      exact ⟨by simp [GatedRoute.chain, admits, h401],
        by simp [GatedRoute.chain, route, h401]⟩
  · intro t payload who ht hne hv he
    have hnext : verifyToken env db req = .next { req with user := some payload } := by
      simp [verifyToken, ht, hne, hv]
    have hA := verifyAdmin_of_user env db { req with user := some payload } payload who rfl he
    have hS := verifySeller_of_user env db { req with user := some payload } payload who rfl he
    rw [GatedRoute.serve_eq_route]
    have seller : ∀ body : Handler,
        (HoldsRole db.users who "seller" →
          admits [verifyToken, verifySeller] env db req =
            some { req with user := some payload }) ∧
        (¬ HoldsRole db.users who "seller" →
          admits [verifyToken, verifySeller] env db req = none ∧
          ∃ m, route [verifyToken, verifySeller] body env db req =
            (.sent 403 (.message m), db)) := by
      intro body
      refine ⟨fun hr => ?_, fun hr => ⟨?_, "forbidden access! Action only  Seller", ?_⟩⟩
      · simp [admits, hnext, hS.1 hr]
      · simp [admits, hnext, hS.2 hr]
      · simp [route, hnext, hS.2 hr]
    have admin : ∀ body : Handler,
        (HoldsRole db.users who "admin" →
          admits [verifyToken, verifyAdmin] env db req =
            some { req with user := some payload }) ∧
        (¬ HoldsRole db.users who "admin" →
          admits [verifyToken, verifyAdmin] env db req = none ∧
          ∃ m, route [verifyToken, verifyAdmin] body env db req =
            (.sent 403 (.message m), db)) := by
      intro body
      refine ⟨fun hr => ?_, fun hr => ⟨?_, "forbidden access! Action only Admin", ?_⟩⟩
      · simp [admits, hnext, hA.1 hr]
      · simp [admits, hnext, hA.2 hr]
      · simp [route, hnext, hA.2 hr]
    cases rt
    · exact seller _
    · exact seller _
    · exact seller _
    · exact admin _
    · exact admin _

/-- C8, as the code has it: on each of the five role-gated routes, a request
without a token that verifies is answered 401.  For a token that verifies and
whose payload carries a string `email`, the handler body runs exactly when the
account with that email exists with the role the route asks for; then the
route is the handler body on the request with `req.user` set, and otherwise
the answer is 403.  Whenever the handler body does not run, the answer does
not depend on the handler and the database is unchanged. -/
theorem gated_route_runs_handler_iff_role_of_string_email (rt : GatedRoute) (env : Env)
    (db : Db) (req : Request) :
    (NoValidToken env req →
      admits rt.chain env db req = none ∧
      rt.serve env db req = (.sent 401 (.message "unauthorized access"), db)) ∧
    (∀ t payload who, req.token = some t → t ≠ "" → env.jwtVerify t = some payload →
      payload.get "email" = some (.str who) →
      ((∃ r, admits rt.chain env db req = some r) ↔ HoldsRole db.users who rt.role) ∧
      (HoldsRole db.users who rt.role →
        rt.serve env db req = rt.body env db { req with user := some payload }) ∧
      (¬ HoldsRole db.users who rt.role →
        ∃ m, rt.serve env db req = (.sent 403 (.message m), db))) ∧
    (∀ r, admits rt.chain env db req = some r → rt.serve env db req = rt.body env db r) ∧
    (admits rt.chain env db req = none →
      (∀ handler : Handler, route rt.chain handler env db req = rt.serve env db req) ∧
      (rt.serve env db req).2 = db) := by
  have hc := GatedRoute.admits_cases rt env db req
  have hrun : ∀ r, admits rt.chain env db req = some r →
      rt.serve env db req = rt.body env db r := by
    intro r hr
    rw [GatedRoute.serve_eq_route]
    exact route_of_admits rt.chain rt.body env db req r hr
  refine ⟨hc.1, ?_, hrun, ?_⟩
  · intro t payload who ht hne hv he
    have h := hc.2 t payload who ht hne hv he
    refine ⟨⟨?_, fun hrole => ⟨_, h.1 hrole⟩⟩, fun hrole => hrun _ (h.1 hrole),
      fun hrole => (h.2 hrole).2⟩
    rintro ⟨r, hr⟩
    by_contra hrole
    rw [(h.2 hrole).1] at hr
    cases hr
  · intro hnone
    have h := fun handler => route_of_not_admits rt.chain env db req hnone handler rt.body
    rw [GatedRoute.serve_eq_route]
    exact ⟨fun handler => (h handler).1, ((h rt.body).2)⟩

/-- Witness of C8 as amended, on `GET /all-users/:email`: the administrator's
token runs the handler, Bob's token is refused with 403. -/
theorem gated_route_runs_handler_iff_role_of_string_email_witness :
    ((signed "tok-admin" "admin@x.io").token = some "tok-admin" ∧ "tok-admin" ≠ "" ∧
      sampleEnv.jwtVerify "tok-admin" = some (session "admin@x.io") ∧
      (session "admin@x.io").get "email" = some (.str "admin@x.io") ∧
      HoldsRole sampleDb.users "admin@x.io" GatedRoute.allUsers.role) ∧
    ((signed "tok-bob" "admin@x.io").token = some "tok-bob" ∧ "tok-bob" ≠ "" ∧
      sampleEnv.jwtVerify "tok-bob" = some (session "bob@x.io") ∧
      (session "bob@x.io").get "email" = some (.str "bob@x.io") ∧
      ¬ HoldsRole sampleDb.users "bob@x.io" GatedRoute.allUsers.role) ∧
    GatedRoute.allUsers.serve sampleEnv sampleDb (signed "tok-admin" "admin@x.io") =
      GatedRoute.allUsers.body sampleEnv sampleDb
        { signed "tok-admin" "admin@x.io" with user := some (session "admin@x.io") } ∧
    (∃ m, GatedRoute.allUsers.serve sampleEnv sampleDb (signed "tok-bob" "admin@x.io") =
      (.sent 403 (.message m), sampleDb)) :=
  have hadmin : HoldsRole sampleDb.users "admin@x.io" GatedRoute.allUsers.role :=
    ⟨[], acctAdmin, [acctSeller, acctBob], by decide, by decide, by decide, by decide⟩
  have hbob : ¬ HoldsRole sampleDb.users "bob@x.io" GatedRoute.allUsers.role := by
    rw [holdsRole_iff_findOne]
    rintro ⟨acct, hf, hr⟩
    have h : findOne sampleDb.users (fieldIs "email" (.str "bob@x.io")) = some acctBob := by
      decide
    rw [h] at hf
    injection hf with hf
    subst hf
    exact absurd hr (by decide)
  ⟨⟨by decide, by decide, by decide, by decide, hadmin⟩,
    ⟨by decide, by decide, by decide, by decide, hbob⟩,
    ((gated_route_runs_handler_iff_role_of_string_email GatedRoute.allUsers sampleEnv sampleDb
      (signed "tok-admin" "admin@x.io")).2.1 "tok-admin" (session "admin@x.io") "admin@x.io"
      (by decide) (by decide) (by decide) (by decide)).2.1 hadmin,
    ((gated_route_runs_handler_iff_role_of_string_email GatedRoute.allUsers sampleEnv sampleDb
      (signed "tok-bob" "admin@x.io")).2.1 "tok-bob" (session "bob@x.io") "bob@x.io"
      (by decide) (by decide) (by decide) (by decide)).2.2 hbob⟩

/-- C8 as stated fails: `POST /jwt` signs any body, and the role middleware
passes `req.user.email` to the filter unchecked.  The token of the empty
payload `{}` verifies and carries no email; the filter `{ email: undefined }`
matches the first account without an `email` field, here one with role
`admin`, and the handler of `GET /all-users/:email` runs and answers 200,
although no account has the token's email. -/
theorem gated_route_runs_handler_without_token_email :
    sampleEnv.jwtVerify "tok-anon" = some .nil ∧
    Doc.get .nil "email" = none ∧
    (∀ u ∈ ghostDb.users, ∀ who, u.get "email" = some (.str who) →
      u.get "role" ≠ some (.str "admin")) ∧
    admits GatedRoute.allUsers.chain sampleEnv ghostDb (signed "tok-anon" "nobody@x.io") =
      some { signed "tok-anon" "nobody@x.io" with user := some .nil } ∧
    GatedRoute.allUsers.serve sampleEnv ghostDb (signed "tok-anon" "nobody@x.io") =
      (.sent 200 (.rows ghostDb.users), ghostDb) := by
  refine ⟨by decide, by decide, ?_, by decide, by decide⟩
  intro u hu who he
  simp only [ghostDb, List.mem_cons, List.mem_singleton, List.not_mem_nil, or_false] at hu
  rcases hu with rfl | rfl
  · simp [acctNoEmail, Doc.get] at he
  · decide

/-! ## Listing accounts -/

/-- What `GET /all-users/:email` answers to an administrator: the accounts
whose `email` differs from the route parameter. -/
theorem listAccountsExcept_filters_on_param (env : Env) (db : Db) (req : Request)
    (t : String) (payload : Doc) (who : String) (ht : req.token = some t) (hne : t ≠ "")
    (hv : env.jwtVerify t = some payload) (he : payload.get "email" = some (.str who))
    (hrole : HoldsRole db.users who "admin") :
    listAccountsExcept env db req =
      (.sent 200 (.rows (db.users.filter
        (fun u => decide (u.get "email" ≠ some (.str req.param))))), db) := by
  have hadmit :=
    ((GatedRoute.admits_cases .allUsers env db req).2 t payload who ht hne hv he).1 hrole
  have h := route_of_admits [verifyToken, verifyAdmin] listAccountsExceptBody env db req _ hadmit
  unfold listAccountsExcept
  rw [h]
  simp only [listAccountsExceptBody, findAll]
  congr 3
  apply List.filter_congr
  intro u _
  simp [fieldNe, fieldIs]

/-- C9 (the code departs from the claim): the filter of `GET /all-users/:email`
excludes the email of the route parameter, not the email of the session.  The
administrator `admin@x.io`, calling with the parameter `bob@x.io`, receives
their own account, and Bob's account is left out. -/
theorem listAccountsExcept_excludes_path_email_not_caller :
    listAccountsExcept sampleEnv sampleDb (signed "tok-admin" "bob@x.io") =
      (.sent 200 (.rows [acctAdmin, acctSeller]), sampleDb) := by
  decide

/-! ## Order status -/

/-- The handler `updateOrderStatus` on the first order with the id. -/
theorem updateOrderStatus_of_split (env : Env) (db : Db) (req : Request) (id : Nat)
    (order : Doc) (pre post : List Doc)
    (hid : parseObjectId req.param = some id)
    (hc : db.orders = pre ++ order :: post)
    (hpre : ∀ x ∈ pre, x.get "_id" ≠ some (.oid id))
    (hoid : order.get "_id" = some (.oid id)) :
    updateOrderStatus env db req =
      (.sent 200 (.updateResult 1
          (if order.set "status" ((req.body.get "status").getD .null) = order then 0 else 1)),
        { db with
          orders := (pre ++ order.set "status" ((req.body.get "status").getD .null) :: post) }) := by
  have hpre2 : ∀ x ∈ pre, fieldIs "_id" (.oid id) x = false := by
    intro x hx
    simp [fieldIs, hpre x hx]
  have hd : fieldIs "_id" (.oid id) order = true := by simp [fieldIs, hoid]
  have hu : setOp [("status", (req.body.get "status").getD .null)] order =
      .ok (order.set "status" ((req.body.get "status").getD .null)) := by
    simp [setOp, Doc.setAll]
  have := updateOne_of_split pre post hpre2 hd hu
  simp only [updateOrderStatus, hid, hc, this]

/-- The handler `deleteOrder` on the first order with the id. -/
theorem deleteOrder_of_split (env : Env) (db : Db) (req : Request) (id : Nat)
    (order : Doc) (pre post : List Doc)
    (hid : parseObjectId req.param = some id)
    (hc : db.orders = pre ++ order :: post)
    (hpre : ∀ x ∈ pre, x.get "_id" ≠ some (.oid id))
    (hoid : order.get "_id" = some (.oid id)) :
    deleteOrder env db req =
      if order.get "status" = some (.str "Delivered") then
        (.sent 409 (.message "You can not delete delivered order"), db)
      else (.sent 200 (.deleteResult 1), { db with orders := (pre ++ post) }) := by
  have hpre2 : ∀ x ∈ pre, fieldIs "_id" (.oid id) x = false := by
    intro x hx
    simp [fieldIs, hpre x hx]
  have hd : fieldIs "_id" (.oid id) order = true := by simp [fieldIs, hoid]
  have hfind := findOne_of_split pre post hpre2 hd
  have hdel := deleteOne_of_split pre post hpre2 hd
  by_cases hs : order.get "status" = some (.str "Delivered")
  · simp [deleteOrder, hid, hc, hfind, hs]
  · simp [deleteOrder, hid, hc, hfind, hs, hdel]

/-- The `_id` the store gives a document does not depend on its `status`. -/
theorem insertOne_set_status (pk : Nat) (c : Collection) (d : Doc) (s : Value) :
    (insertOne pk c (d.set "status" s) = .error .duplicateKey ∧
      insertOne pk c d = .error .duplicateKey) ∨
    ∃ id c1 c2, insertOne pk c (d.set "status" s) = .ok (c1, id) ∧
      insertOne pk c d = .ok (c2, id) := by
  have hg : (d.set "status" s).get "_id" = d.get "_id" :=
    Doc.get_set_ne d "status" "_id" s (by decide)
  unfold insertOne
  simp only [hg]
  split
  · exact Or.inl ⟨rfl, rfl⟩
  · exact Or.inr ⟨_, _, _, rfl, rfl⟩

/-- The outcome of `placeOrder` does not depend on the status of the order. -/
theorem placeOrder_outcome_set_status (env : Env) (db : Db) (req : Request) (s : Value) :
    (placeOrder env db { req with body := req.body.set "status" s }).1 =
      (placeOrder env db req).1 := by
  unfold placeOrder
  cases htok : req.token with
  | none => simp [route, verifyToken, htok]
  | some t =>
    by_cases hne : t = ""
    · simp [route, verifyToken, htok, hne]
    · cases hv : env.jwtVerify t with
      | none => simp [route, verifyToken, htok, hne, hv]
      | some who =>
        simp only [route, verifyToken, htok, hne, hv, if_false, placeOrderBody]
        rcases insertOne_set_status env.createPk db.orders req.body s with
          ⟨h1, h2⟩ | ⟨id, c1, c2, h1, h2⟩
        · rw [h1, h2]
        · rw [h1, h2]

/-- C10: under the store's unique `_id` index, for an existing order with any
current status and any new status value (an absent one is written as `null`),
`updateOrderStatus` answers 200 and sets that order's status to the new value;
no other field of the order and no other order changes.  A `Delivered` order
moved to `Pending` is deleted by `deleteOrder` afterwards.  Of the three
operations that change orders, `deleteOrder` refuses exactly the orders whose
status is `Delivered`, and the outcome of `placeOrder` does not depend on the
status the order carries. -/
theorem updateOrderStatus_unconstrained (env : Env) (db : Db) (req : Request) (id : Nat)
    (order : Doc)
    (hid : parseObjectId req.param = some id)
    (hu : UniqueIds db.orders)
    (hmem : order ∈ db.orders)
    (hoid : order.get "_id" = some (.oid id)) :
    ∃ pre post order' n,
      db.orders = pre ++ order :: post ∧
      updateOrderStatus env db req =
        (.sent 200 (.updateResult 1 n), { db with orders := (pre ++ order' :: post) }) ∧
      order'.get "status" = some ((req.body.get "status").getD .null) ∧
      (∀ f, f ≠ "status" → order'.get f = order.get f) ∧
      (∀ delReq : Request, parseObjectId delReq.param = some id →
        ((deleteOrder env db delReq).1 =
            .sent 409 (.message "You can not delete delivered order") ↔
          order.get "status" = some (.str "Delivered")) ∧
        (order.get "status" ≠ some (.str "Delivered") →
          deleteOrder env db delReq =
            (.sent 200 (.deleteResult 1), { db with orders := (pre ++ post) })) ∧
        (req.body.get "status" = some (.str "Pending") →
          deleteOrder env (updateOrderStatus env db req).2 delReq =
            (.sent 200 (.deleteResult 1), { db with orders := (pre ++ post) }))) ∧
      (∀ (env0 : Env) (newReq : Request) (s : Value),
        (placeOrder env0 db { newReq with body := newReq.body.set "status" s }).1 =
          (placeOrder env0 db newReq).1) := by
  obtain ⟨pre, post, hc, hpre, _⟩ := split_of_unique_id hu hmem hoid
  have hupd := updateOrderStatus_of_split env db req id order pre post hid hc hpre hoid
  refine ⟨pre, post, _, _, hc, hupd, Doc.get_set_same _ _ _, ?_, ?_, ?_⟩
  · intro f hf
    exact Doc.get_set_ne order "status" f _ (Ne.symm hf)
  · intro delReq hdid
    have hdel := deleteOrder_of_split env db delReq id order pre post hdid hc hpre hoid
    refine ⟨?_, ?_, ?_⟩
    · rw [hdel]
      by_cases hs : order.get "status" = some (.str "Delivered")
      · simp [hs]
      · simp [hs]
    · intro hs
      rw [hdel]
      simp [hs]
    · intro hpending
      have hoid2 : (order.set "status" ((req.body.get "status").getD .null)).get "_id" =
          some (.oid id) := by
        rw [Doc.get_set_ne order "status" "_id" _ (by decide)]; exact hoid
      have hdel2 := deleteOrder_of_split env
        { db with
          orders := (pre ++ order.set "status" ((req.body.get "status").getD .null) :: post) }
        delReq id (order.set "status" ((req.body.get "status").getD .null)) pre post
        hdid rfl hpre hoid2
      rw [hupd]
      refine hdel2.trans ?_
      rw [Doc.get_set_same]
      simp [hpending]
  · intro env0 newReq s
    exact placeOrder_outcome_set_status env0 db newReq s

/-- Witness of C10: the delivered sample order is moved back to `Pending` and
then deleted. -/
theorem updateOrderStatus_unconstrained_witness :
    (parseObjectId (statusChange "000000000000000000000001" (.str "Pending")).param = some 1 ∧
      UniqueIds sampleDb.orders ∧ orderDelivered ∈ sampleDb.orders ∧
      orderDelivered.get "_id" = some (.oid 1) ∧
      parseObjectId (bare "000000000000000000000001").param = some 1 ∧
      (statusChange "000000000000000000000001" (.str "Pending")).body.get "status" =
        some (.str "Pending")) ∧
    (updateOrderStatus sampleEnv sampleDb
        (statusChange "000000000000000000000001" (.str "Pending"))).2.orders =
      [orderDelivered.set "status" (.str "Pending"), orderPending] ∧
    ∃ pre post, sampleDb.orders = pre ++ orderDelivered :: post ∧
      deleteOrder sampleEnv
          (updateOrderStatus sampleEnv sampleDb
            (statusChange "000000000000000000000001" (.str "Pending"))).2
          (bare "000000000000000000000001") =
        (.sent 200 (.deleteResult 1), { sampleDb with orders := (pre ++ post) }) := by
  obtain ⟨pre, post, _, _, hc, _, _, _, hdel, _⟩ :=
    updateOrderStatus_unconstrained sampleEnv sampleDb
      (statusChange "000000000000000000000001" (.str "Pending")) 1 orderDelivered
      (by decide) (by decide) (by decide) (by decide)
  exact ⟨⟨by decide, by decide, by decide, by decide, by decide, by decide⟩, by decide,
    pre, post, hc, (hdel (bare "000000000000000000000001") (by decide)).2.2 (by decide)⟩

/-! ## Listing the orders of a customer -/

theorem Doc.get_assign (d : Doc) (k f : String) (ov : Option Value) :
    (d.assign k ov).get f = if k = f then ov else d.get f := by
  cases ov with
  | none =>
    by_cases h : k = f
    · subst h; simp [Doc.assign, Doc.get_erase_same]
    · simp [Doc.assign, h, Doc.get_erase_ne _ _ _ h]
  | some v =>
    by_cases h : k = f
    · subst h; simp [Doc.assign, Doc.get_set_same]
    · simp [Doc.assign, h, Doc.get_set_ne _ _ _ _ h]

theorem Doc.getPath_cons (d : Doc) (k : String) (ks : List String) :
    d.getPath (k :: ks) =
      match d.get k with
      | some v => v.getPath ks
      | none => none := by
  simp [Doc.getPath, Value.getPath]

theorem Value.getPath_nil (v : Value) : v.getPath [] = some v := by
  cases v <;> simp [Value.getPath]

theorem Doc.getPath_two_obj (d p : Doc) (k f : String) (h : d.get k = some (.obj p)) :
    d.getPath [k, f] = p.get f := by
  rw [Doc.getPath_cons, h]
  simp only [Value.getPath]
  cases p.get f with
  | none => rfl
  | some v => simp [Value.getPath_nil]

/-- A stage that succeeds on every document is a `map`. -/
theorem mapStage_ok (f : Doc → Except StoreError Doc) (g : Doc → Doc) (l : List Doc)
    (h : ∀ d ∈ l, f d = .ok (g d)) : mapStage f l = .ok (l.map g) := by
  induction l with
  | nil => simp [mapStage]
  | cons d rest ih =>
    have h1 := h d (by simp)
    have h2 := ih (fun x hx => h x (by simp [hx]))
    simp [mapStage, h1, h2]

/-- A stage fails as soon as one document fails. -/
theorem mapStage_error (f : Doc → Except StoreError Doc) (l : List Doc) (d : Doc)
    (hd : d ∈ l) (h : ∀ x ∈ l, f x = .error .conversion ∨ ∃ y, f x = .ok y)
    (hf : f d = .error .conversion) : mapStage f l = .error .conversion := by
  induction l with
  | nil => cases hd
  | cons x rest ih =>
    rcases h x (by simp) with hx | ⟨y, hx⟩
    · simp [mapStage, hx]
    · have hd2 : d ∈ rest := by
        rcases List.mem_cons.mp hd with rfl | hmem
        · rw [hx] at hf; cases hf
        · exact hmem
      have := ih hd2 (fun z hz => h z (by simp [hz]))
      simp [mapStage, hx, this]

theorem toObjectId_cases (x : Option Value) :
    toObjectId x = .error .conversion ∨ ∃ v, toObjectId x = .ok v := by
  unfold toObjectId
  split
  · exact Or.inr ⟨_, rfl⟩
  · exact Or.inr ⟨_, rfl⟩
  · exact Or.inr ⟨_, rfl⟩
  · split
    · exact Or.inr ⟨_, rfl⟩
    · exact Or.inl rfl
  · exact Or.inl rfl

theorem convertible_iff (o : Doc) :
    convertible o = true ↔ ∃ v, toObjectId (o.getPath ["plantInfo", "plantId"]) = .ok v := by
  unfold convertible
  rcases toObjectId_cases (o.getPath ["plantInfo", "plantId"]) with h | ⟨v, h⟩
  · simp [h]
  · simp [h]

theorem addPlantId_of_convertible (o : Doc) (h : convertible o = true) :
    addPlantId o = .ok (o.set "plantId" (plantIdOf o)) := by
  obtain ⟨v, hv⟩ := (convertible_iff o).mp h
  simp [addPlantId, plantIdOf, hv]

theorem addPlantId_of_not_convertible (o : Doc) (h : convertible o = false) :
    addPlantId o = .error .conversion := by
  rcases toObjectId_cases (o.getPath ["plantInfo", "plantId"]) with hv | ⟨v, hv⟩
  · simp [addPlantId, hv]
  · simp [convertible, hv] at h

theorem addPlantId_cases (o : Doc) :
    addPlantId o = .error .conversion ∨ ∃ y, addPlantId o = .ok y := by
  rcases toObjectId_cases (o.getPath ["plantInfo", "plantId"]) with hv | ⟨v, hv⟩
  · exact Or.inl (by simp [addPlantId, hv])
  · exact Or.inr ⟨o.set "plantId" v, by simp [addPlantId, hv]⟩

/-- Under the unique index at most one catalog item carries a given `_id`. -/
theorem filter_idOf_of_unique (plants : Collection) (hu : UniqueIds plants) (v : Value) :
    plants.filter (fun p => decide (idOf p = v)) = [] ∨
      ∃ p, p ∈ plants ∧ idOf p = v ∧ plants.filter (fun p => decide (idOf p = v)) = [p] := by
  induction plants with
  | nil => exact Or.inl rfl
  | cons x rest ih =>
    have h1 : (ids (x :: rest)).Nodup := hu
    simp only [ids, List.map_cons, List.nodup_cons] at h1
    by_cases hx : idOf x = v
    · right
      refine ⟨x, by simp, hx, ?_⟩
      have hrest : rest.filter (fun p => decide (idOf p = v)) = [] := by
        apply List.filter_eq_nil_iff.mpr
        intro a ha
        simp only [decide_eq_true_eq]
        intro hav
        apply h1.1
        have : (x.get "_id").getD .null = (a.get "_id").getD .null := by
          have e1 : idOf x = idOf a := by rw [hx, hav]
          exact e1
        rw [this]
        exact List.mem_map.mpr ⟨a, ha, rfl⟩
      simp [List.filter, hx, hrest]
    · rcases ih h1.2 with h | ⟨p, hp, hpv, hf⟩
      · left
        simp [List.filter, hx, h]
      · right
        exact ⟨p, by simp [hp], hpv, by simp [List.filter, hx, hf]⟩

/-- The fields of a document after the `$addFields` stage of the customer
pipeline. -/
theorem addFields_customer_get (d : Doc) (f : String) :
    (addFields customerFields d).get f =
      if "quantity" = f then d.getPath ["plantInfo", "totalQuantity"]
      else if "price" = f then d.getPath ["plantDoc", "price"]
      else if "category" = f then d.getPath ["plantDoc", "category"]
      else if "name" = f then d.getPath ["plantDoc", "name"]
      else if "image" = f then d.getPath ["plantDoc", "image"]
      else d.get f := by
  simp only [addFields, customerFields, List.foldl, Doc.get_assign]

/-- The row the pipeline makes of an order and the catalog item it joins. -/
theorem isRowOf_decorated (plants : Collection) (o p : Doc) (hp : p ∈ plants)
    (hconv : toObjectId (o.getPath ["plantInfo", "plantId"]) = .ok (idOf p)) :
    IsRowOf plants o
      ((addFields customerFields
        ((o.set "plantId" (idOf p)).set "plantDoc" (.obj p))).erase "plantDoc") := by
  have hdoc : ((o.set "plantId" (idOf p)).set "plantDoc" (.obj p)).get "plantDoc" =
      some (.obj p) := Doc.get_set_same _ _ _
  have hjoin : ∀ f, ((o.set "plantId" (idOf p)).set "plantDoc" (.obj p)).getPath
      ["plantDoc", f] = p.get f := fun f => Doc.getPath_two_obj _ p "plantDoc" f hdoc
  have hinfo : ((o.set "plantId" (idOf p)).set "plantDoc" (.obj p)).getPath
      ["plantInfo", "totalQuantity"] = o.getPath ["plantInfo", "totalQuantity"] := by
    rw [Doc.getPath_cons, Doc.getPath_cons,
      Doc.get_set_ne _ "plantDoc" "plantInfo" _ (by decide),
      Doc.get_set_ne _ "plantId" "plantInfo" _ (by decide)]
  refine ⟨p, hp, hconv, ?_, ?_, ?_, ?_, ?_, Doc.get_erase_same _ _, ?_, ?_⟩
  · rw [Doc.get_erase_ne _ "plantDoc" "image" (by decide), addFields_customer_get]
    simp [hjoin]
  · rw [Doc.get_erase_ne _ "plantDoc" "name" (by decide), addFields_customer_get]
    simp [hjoin]
  · rw [Doc.get_erase_ne _ "plantDoc" "category" (by decide), addFields_customer_get]
    simp [hjoin]
  · rw [Doc.get_erase_ne _ "plantDoc" "price" (by decide), addFields_customer_get]
    simp [hjoin]
  · rw [Doc.get_erase_ne _ "plantDoc" "quantity" (by decide), addFields_customer_get]
    simp [hinfo]
  · rw [Doc.get_erase_ne _ "plantDoc" "plantId" (by decide), addFields_customer_get]
    simp only [String.reduceEq, if_false]
    rw [Doc.get_set_ne _ "plantDoc" "plantId" _ (by decide), Doc.get_set_same]
  · intro f hf
    simp only [List.mem_cons, List.mem_singleton, List.not_mem_nil, or_false, not_or] at hf
    obtain ⟨h1, h2, h3, h4, h5, h6, h7⟩ := hf
    rw [Doc.get_erase_ne _ "plantDoc" f (Ne.symm h6), addFields_customer_get]
    simp only [Ne.symm h1, Ne.symm h2, Ne.symm h3, Ne.symm h4, Ne.symm h5, if_false]
    rw [Doc.get_set_ne _ "plantDoc" f _ (Ne.symm h6),
      Doc.get_set_ne _ "plantId" f _ (Ne.symm h7)]

theorem customerRows_cons (plants : Collection) (d : Doc) (ds : List Doc) :
    customerRows plants (d :: ds) =
      (plants.filter (fun p => decide (idOf p = (d.get "plantId").getD .null))).map
        (fun p => (addFields customerFields (d.set "plantDoc" (.obj p))).erase "plantDoc") ++
      customerRows plants ds := by
  simp [customerRows, unwindPlantDoc, lookupPlants, List.flatMap_cons, List.map_append,
    List.map_map, idOf, Function.comp_def]

/-- One row for each order that resolves, in the order of the collection. -/
theorem customerRows_forall₂ (plants : Collection) (hu : UniqueIds plants) (l : List Doc)
    (hconv : ∀ o ∈ l, convertible o = true) :
    List.Forall₂ (IsRowOf plants) (l.filter (resolves plants))
      (customerRows plants (l.map (fun o => o.set "plantId" (plantIdOf o)))) := by
  induction l with
  | nil => simp [customerRows, unwindPlantDoc, lookupPlants]
  | cons o rest ih =>
    have ih2 := ih (fun x hx => hconv x (by simp [hx]))
    obtain ⟨v, hv⟩ := (convertible_iff o).mp (hconv o (by simp))
    have hpid : plantIdOf o = v := by simp [plantIdOf, hv]
    rw [List.map_cons, customerRows_cons, hpid, Doc.get_set_same]
    simp only [Option.getD_some]
    rcases filter_idOf_of_unique plants hu v with hnil | ⟨p, hp, hpv, hone⟩
    · have hres : resolves plants o = false := by
        simp only [resolves, hv]
        rw [List.any_eq_false]
        intro x hx
        have := List.filter_eq_nil_iff.mp hnil x hx
        simpa using this
      rw [hnil, List.filter_cons_of_neg (by simp [hres])]
      simpa using ih2
    · have hres : resolves plants o = true := by
        simp only [resolves, hv]
        rw [List.any_eq_true]
        exact ⟨p, hp, by simp [hpv]⟩
      rw [hone, List.filter_cons_of_pos hres]
      subst hpv
      exact List.Forall₂.cons (isRowOf_decorated plants o p hp hv) ih2

/-- C4, as the code has it: under the store's unique `_id` index, when every
order of the buyer carries a `plantInfo.plantId` that `$toObjectId` converts
(absent, `null`, an ObjectId or 24 hexadecimal digits), the handler answers
200 with exactly one row, in collection order, for each order whose
`userInfo.email` is the argument and whose `plantInfo.plantId` resolves to a
catalog item, and no other row; each row is its order decorated from that
item, without `plantDoc`.  When an order of the buyer carries a
`plantInfo.plantId` that does not convert, the aggregation fails and no
response is sent. -/
theorem listOrdersForCustomer_rows_when_convertible (env : Env) (db : Db) (req : Request)
    (hu : UniqueIds db.plants) :
    ((∀ o ∈ db.orders, o.getPath ["userInfo", "email"] = some (.str req.param) →
        convertible o = true) →
      ∃ rows, listOrdersForCustomer env db req = (.sent 200 (.rows rows), db) ∧
        List.Forall₂ (IsRowOf db.plants)
          (db.orders.filter (fun o =>
            decide (o.getPath ["userInfo", "email"] = some (.str req.param)) &&
              resolves db.plants o))
          rows) ∧
    ((∃ o ∈ db.orders, o.getPath ["userInfo", "email"] = some (.str req.param) ∧
        convertible o = false) →
      listOrdersForCustomer env db req = (.thrown (.store .conversion), db)) := by
  constructor
  · intro hconv
    have hmatched : ∀ o ∈ findAll db.orders (pathIs ["userInfo", "email"] (.str req.param)),
        convertible o = true := by
      intro o ho
      have := List.mem_filter.mp ho
      exact hconv o this.1 (by simpa [pathIs] using this.2)
    have hstage := mapStage_ok addPlantId (fun o => o.set "plantId" (plantIdOf o)) _
      (fun o ho => addPlantId_of_convertible o (hmatched o ho))
    refine ⟨customerRows db.plants
      ((findAll db.orders (pathIs ["userInfo", "email"] (.str req.param))).map
        (fun o => o.set "plantId" (plantIdOf o))), ?_, ?_⟩
    · simp only [listOrdersForCustomer, enrich, hstage]
      rfl
    · have h := customerRows_forall₂ db.plants hu _ hmatched
      have hfilter : (findAll db.orders (pathIs ["userInfo", "email"] (.str req.param))).filter
          (resolves db.plants) =
          db.orders.filter (fun o =>
            decide (o.getPath ["userInfo", "email"] = some (.str req.param)) &&
              resolves db.plants o) := by
        simp only [findAll, List.filter_filter]
        apply List.filter_congr
        intro x _
        simp [pathIs, Bool.and_comm]
      rw [hfilter] at h
      exact h
  · rintro ⟨o, ho, hemail, hbad⟩
    have hmem : o ∈ findAll db.orders (pathIs ["userInfo", "email"] (.str req.param)) :=
      List.mem_filter.mpr ⟨ho, by simp [pathIs, hemail]⟩
    have hstage := mapStage_error addPlantId _ o hmem (fun x _ => addPlantId_cases x)
      (addPlantId_of_not_convertible o hbad)
    simp only [listOrdersForCustomer, enrich, hstage]

/-- Witness of C4 as amended: of Bob's two orders the one whose item exists
gives a row, the other is omitted, and the order of another buyer does not
appear. -/
theorem listOrdersForCustomer_rows_when_convertible_witness :
    (UniqueIds shopDb.plants ∧
      ∀ o ∈ shopDb.orders, o.getPath ["userInfo", "email"] = some (.str (bare "bob@x.io").param) →
        convertible o = true) ∧
    shopDb.orders.filter (fun o =>
        decide (o.getPath ["userInfo", "email"] = some (.str (bare "bob@x.io").param)) &&
          resolves shopDb.plants o) = [orderFern] ∧
    ∃ rows, listOrdersForCustomer sampleEnv shopDb (bare "bob@x.io") =
        (.sent 200 (.rows rows), shopDb) ∧
      List.Forall₂ (IsRowOf shopDb.plants) [orderFern] rows := by
  have hfilter : shopDb.orders.filter (fun o =>
      decide (o.getPath ["userInfo", "email"] = some (.str (bare "bob@x.io").param)) &&
        resolves shopDb.plants o) = [orderFern] := by decide
  obtain ⟨rows, h1, h2⟩ :=
    (listOrdersForCustomer_rows_when_convertible sampleEnv shopDb (bare "bob@x.io")
      (by decide)).1 (by decide)
  rw [hfilter] at h2
  exact ⟨⟨by decide, by decide⟩, hfilter, rows, h1, h2⟩

/-- C4 as stated fails: one order of the buyer with a `plantInfo.plantId` that
is not the text of an ObjectId makes `$toObjectId` fail; the request ends
without a response, and the buyer's order whose item exists gets no row. -/
theorem listOrdersForCustomer_fails_on_malformed_plantId :
    (decide (orderFern.getPath ["userInfo", "email"] = some (.str "bob@x.io")) &&
      resolves shopDbBadRef.plants orderFern) = true ∧
    orderFern ∈ shopDbBadRef.orders ∧
    listOrdersForCustomer sampleEnv shopDbBadRef (bare "bob@x.io") =
      (.thrown (.store .conversion), shopDbBadRef) := by
  decide

end PlantBay
